import Mathlib

/-!
Verification of the py-unii library (Alphatronics UNii alarm-panel client).

Shallow embedding of the core of the library:
  * `src/unii/unii_message.py` — frame codec (CRC-16, encode, decode),
  * `src/unii/unii_command_data.py` — record decoders and helpers,
  * `src/unii/unii.py` — state-model handlers and arm/disarm logic,
  * `src/unii/unii.py` — the pending-correlation state shared between the
    sender and the receive loop.

Bytes are modelled as `Nat` values below 256 inside `List Nat`; Python's
`int.from_bytes`/`int.to_bytes` (big-endian, the Python 3.11 default used by the
source) become `beBytesToNat`/`natToBeBytes`.  Python slices clamp out-of-range
indices, which matches `List.take`/`List.drop`; a single-index access `data[i]`
raises `IndexError` when out of range, which is modelled with `List.get?` and an
explicit error value.
-/

deriving instance DecidableEq for Except

/-- Python `int.from_bytes(data)` with the default big-endian byte order. -/
def beBytesToNat (bs : List Nat) : Nat :=
  bs.foldl (fun acc b => acc * 256 + b) 0

/-- Python `n.to_bytes(w)` (big-endian).  The source raises `OverflowError` when
`n` does not fit in `w` bytes; here the value is truncated to `n % 256 ^ w`, and
every theorem that uses the encoder carries the bound under which the two
agree. -/
def natToBeBytes : Nat → Nat → List Nat
  | 0, _ => []
  | w + 1, n => natToBeBytes w (n / 256) ++ [n % 256]

theorem natToBeBytes_length (w n : Nat) : (natToBeBytes w n).length = w := by
  induction w generalizing n with
  | zero => rfl
  | succ w ih => simp [natToBeBytes, ih]

theorem beBytesToNat_foldl (l : List Nat) (acc : Nat) :
    l.foldl (fun a b => a * 256 + b) acc = acc * 256 ^ l.length + beBytesToNat l := by
  induction l generalizing acc with
  | nil => simp [beBytesToNat]
  | cons b rest ih =>
      rw [List.foldl_cons, ih (acc * 256 + b),
        show beBytesToNat (b :: rest) = rest.foldl (fun a b => a * 256 + b) b by
          simp [beBytesToNat],
        ih b, List.length_cons, pow_succ]
      ring

theorem beBytesToNat_append (xs ys : List Nat) :
    beBytesToNat (xs ++ ys) =
      beBytesToNat xs * 256 ^ ys.length + beBytesToNat ys := by
  rw [beBytesToNat, List.foldl_append, beBytesToNat_foldl]
  rfl

theorem beBytesToNat_cons (b : Nat) (bs : List Nat) :
    beBytesToNat (b :: bs) = b * 256 ^ bs.length + beBytesToNat bs := by
  have h := beBytesToNat_append [b] bs
  simpa [beBytesToNat] using h

theorem beBytesToNat_natToBeBytes (w n : Nat) :
    beBytesToNat (natToBeBytes w n) = n % 256 ^ w := by
  induction w generalizing n with
  | zero => simp [natToBeBytes, beBytesToNat, Nat.mod_one]
  | succ w ih =>
      rw [natToBeBytes, beBytesToNat_append, ih, pow_succ]
      have hmod : n % (256 ^ w * 256) = n % 256 + 256 * (n / 256 % 256 ^ w) := by
        rw [Nat.mul_comm (256 ^ w) 256, Nat.mod_mul]
      simp only [List.length_singleton, pow_one, beBytesToNat, List.foldl_cons,
        List.foldl_nil, Nat.zero_mul, Nat.zero_add]
      omega

/-!
## CRC-16 (`_UNiiMessage._calculate_crc16`, `src/unii/unii_message.py` 137-152)

The source keeps the accumulator as an unbounded Python `int` during the loop
(`crc <<= 1` never masks inside the loop) and applies `crc &= 0xFFFF` once at
the end; the embedding reproduces that exactly.
-/

/-- One shift step of the source CRC loop (body of `for _ in range(8)`). -/
def crc16Round (crc : Nat) : Nat :=
  if crc &&& 0x8000 > 0 then (crc <<< 1) ^^^ 0x1021 else crc <<< 1

/-- `k` iterations of `crc16Round`. -/
def crc16Rounds : Nat → Nat → Nat
  | 0, crc => crc
  | k + 1, crc => crc16Rounds k (crc16Round crc)

/-- `_UNiiMessage._calculate_crc16`: initial value 0x0000, polynomial 0x1021,
MSB first, no reflection, no final XOR, a final mask to 16 bits. -/
def _calculate_crc16 (message : List Nat) : Nat :=
  (message.foldl (fun crc byte => crc16Rounds 8 (crc ^^^ (byte <<< 8))) 0) &&& 0xFFFF

theorem _calculate_crc16_lt (message : List Nat) :
    _calculate_crc16 message < 65536 := by
  have h : _calculate_crc16 message ≤ 0xFFFF := Nat.and_le_right
  omega

/-- The CRC-16/XMODEM reference algorithm: the same parameters (init 0x0000,
polynomial 0x1021, MSB-first, no reflection, no final XOR) kept in a 16-bit
register that is reduced modulo 2^16 at every step. -/
def xmodemRound (crc : Nat) : Nat :=
  if Nat.testBit crc 15 then ((crc * 2) ^^^ 0x1021) % 65536 else (crc * 2) % 65536

def xmodemRounds : Nat → Nat → Nat
  | 0, crc => crc
  | k + 1, crc => xmodemRounds k (xmodemRound crc)

def crc16_xmodem (message : List Nat) : Nat :=
  message.foldl (fun crc byte => xmodemRounds 8 ((crc ^^^ byte * 256) % 65536)) 0

theorem and_mask16 (a : Nat) : a &&& 0xFFFF = a % 65536 := by
  apply Nat.eq_of_testBit_eq
  intro i
  rw [Nat.testBit_and, show (65536 : Nat) = 2 ^ 16 by norm_num,
    Nat.testBit_mod_two_pow, show (0xFFFF : Nat) = 2 ^ 16 - 1 by norm_num,
    Nat.testBit_two_pow_sub_one, Bool.and_comm]

theorem xor_mod_two_pow (a b k : Nat) :
    (a ^^^ b) % 2 ^ k = a % 2 ^ k ^^^ b % 2 ^ k := by
  apply Nat.eq_of_testBit_eq
  intro i
  by_cases hi : i < k <;>
    simp [Nat.testBit_mod_two_pow, Nat.testBit_xor, hi]

theorem xor_mod_65536 (a b : Nat) :
    (a ^^^ b) % 65536 = a % 65536 ^^^ b % 65536 := by
  have h := xor_mod_two_pow a b 16
  norm_num at h
  exact h

theorem crc16Round_mod (c : Nat) :
    crc16Round c % 65536 = xmodemRound (c % 65536) := by
  have htest : Nat.testBit (c % 65536) 15 = Nat.testBit c 15 := by
    rw [show (65536 : Nat) = 2 ^ 16 by norm_num, Nat.testBit_mod_two_pow]
    simp
  have hand : c &&& 0x8000 = (Nat.testBit c 15).toNat * 2 ^ 15 := by
    rw [show (0x8000 : Nat) = 2 ^ 15 by norm_num, Nat.and_two_pow]
  have hmul : c <<< 1 % 65536 = c % 65536 * 2 % 65536 := by
    rw [Nat.shiftLeft_eq, pow_one, Nat.mul_mod]
  unfold crc16Round xmodemRound
  rw [htest]
  cases hbit : Nat.testBit c 15 with
  | false =>
      have hcond : ¬ (c &&& 0x8000 > 0) := by
        rw [hand, hbit]
        simp
      rw [if_neg hcond, if_neg (by simp), hmul]
  | true =>
      have hcond : c &&& 0x8000 > 0 := by
        rw [hand, hbit]
        norm_num
      rw [if_pos hcond, if_pos rfl, xor_mod_65536, xor_mod_65536, hmul]

theorem crc16Rounds_mod (k c : Nat) :
    crc16Rounds k c % 65536 = xmodemRounds k (c % 65536) := by
  induction k generalizing c with
  | zero => rfl
  | succ k ih => rw [crc16Rounds, xmodemRounds, ih, crc16Round_mod]

theorem crc16_fold_mod (l : List Nat) (c : Nat) :
    (l.foldl (fun crc byte => crc16Rounds 8 (crc ^^^ (byte <<< 8))) c) % 65536 =
      l.foldl (fun crc byte => xmodemRounds 8 ((crc ^^^ byte * 256) % 65536))
        (c % 65536) := by
  induction l generalizing c with
  | nil => rfl
  | cons b rest ih =>
      have h1 : c % 65536 % 65536 = c % 65536 := Nat.mod_mod_of_dvd c dvd_rfl
      have h2 : b <<< 8 = b * 256 := by
        rw [Nat.shiftLeft_eq]
      rw [List.foldl_cons, List.foldl_cons, ih, crc16Rounds_mod, h2,
        xor_mod_65536, xor_mod_65536, h1]

set_option maxRecDepth 8192 in
/-- Claim C2: the source checksum function coincides with CRC-16/XMODEM
(initial value 0x0000, polynomial 0x1021, MSB-first, no reflection, no final
XOR) on every input, and reproduces the two reference results
`01 23 45 67 89 AB CD EF → 0xA955` and `01 23 45 67 89 → 0x6282`. -/
theorem crc16_implements_xmodem :
    (∀ message : List Nat, _calculate_crc16 message = crc16_xmodem message) ∧
    _calculate_crc16 [0x01, 0x23, 0x45, 0x67, 0x89, 0xAB, 0xCD, 0xEF] = 0xA955 ∧
    _calculate_crc16 [0x01, 0x23, 0x45, 0x67, 0x89] = 0x6282 := by
  refine ⟨fun message => ?_, by decide, by decide⟩
  rw [_calculate_crc16, and_mask16, crc16_xmodem, crc16_fold_mod]

/-!
## Bit-position extraction (`bit_position_to_numeric`,
`src/unii/unii_command_data.py` 21-33)

The source assembles the bytes with `int.from_bytes(data)` — whose default byte
order is *big*-endian — and scans only bit indices `range(0, 31)`, i.e. bits 0
to 30.
-/

/-- `bit_position_to_numeric`: positions (1-based) of the set bits among bits
0..30 of the big-endian-assembled value. -/
def bit_position_to_numeric (data : List Nat) : List Nat :=
  (List.range 31).foldl
    (fun numerics i =>
      if beBytesToNat data &&& 2 ^ i > 0 then numerics ++ [i + 1] else numerics)
    []

/-- Little-endian assembly of a byte list (least significant byte first). -/
def leBytesToNat (bs : List Nat) : Nat :=
  bs.foldr (fun b acc => acc * 256 + b) 0

/-- The claim's specification of bit-position extraction, following its words:
the ascending list of the 1-based positions of *all* set bits of the bitmask
assembled from the bytes *little-endian* (bit 0 maps to position 1). -/
def bit_position_spec (data : List Nat) : List Nat :=
  ((List.range (8 * data.length)).filter
    (fun i => Nat.testBit (leBytesToNat data) i)).map (fun i => i + 1)

theorem foldl_append_if {p : Nat → Prop} [DecidablePred p] (f : Nat → Nat)
    (l acc : List Nat) :
    l.foldl (fun numerics i => if p i then numerics ++ [f i] else numerics) acc
      = acc ++ (l.filter (fun i => decide (p i))).map f := by
  induction l generalizing acc with
  | nil => simp
  | cons x rest ih =>
      by_cases h : p x <;> simp [List.filter_cons, h, ih]

theorem and_two_pow_pos (x i : Nat) : x &&& 2 ^ i > 0 ↔ Nat.testBit x i := by
  rw [Nat.and_two_pow]
  cases h : Nat.testBit x i <;> simp

/-- Claim C6 counterexample: on the byte string `01 00` the code returns `[9]`
(big-endian assembly) while the claim's little-endian specification gives
`[1]`; on `80 00 00 00` the code returns `[]` (bit 31 is never scanned) while
the specification returns the position of the set bit. -/
theorem bit_position_little_endian_refuted :
    bit_position_to_numeric [1, 0] = [9] ∧
    bit_position_spec [1, 0] = [1] ∧
    bit_position_to_numeric [128, 0, 0, 0] = [] ∧
    bit_position_spec [128, 0, 0, 0] = [8] := by
  refine ⟨by decide, by decide, by decide, by decide⟩

set_option maxRecDepth 2048 in
/-- Claim C6 (amended): for every byte string, `bit_position_to_numeric`
returns the ascending list of the 1-based positions of the set bits among bits
0 to 30 of the bitmask assembled from the bytes big-endian (bit 0 maps to
position 1); in particular the 2-byte value 0b0000000000000011 yields `[1, 2]`
and 0b0000000000000001 yields `[1]`. -/
theorem bit_position_big_endian_bits_0_to_30 (data : List Nat) :
    List.Sorted (fun a b => a < b) (bit_position_to_numeric data) ∧
    (∀ j, j ∈ bit_position_to_numeric data ↔
      1 ≤ j ∧ j ≤ 31 ∧ Nat.testBit (beBytesToNat data) (j - 1)) ∧
    bit_position_to_numeric [0, 3] = [1, 2] ∧
    bit_position_to_numeric [0, 1] = [1] := by
  refine ⟨?_, fun j => ?_, by decide, by decide⟩
  · rw [bit_position_to_numeric, foldl_append_if]
    simp only [List.nil_append]
    rw [List.Sorted, List.pairwise_map]
    exact ((List.pairwise_lt_range 31).filter _).imp (by omega)
  · rw [bit_position_to_numeric, foldl_append_if]
    simp only [List.nil_append, List.mem_map, List.mem_filter, List.mem_range,
      decide_eq_true_eq]
    constructor
    · rintro ⟨i, ⟨hi, hp⟩, rfl⟩
      rw [and_two_pow_pos] at hp
      refine ⟨by omega, by omega, ?_⟩
      simpa using hp
    · rintro ⟨h1, h2, h3⟩
      refine ⟨j - 1, ⟨by omega, ?_⟩, by omega⟩
      rw [and_two_pow_pos]
      exact h3

/-!
## Association tables

Python `dict[int, V]` values are modelled as association lists with
dict-equivalent lookup semantics: `tblSet` overwrites, `tblDel` removes,
`tblGet` finds the entry for a key.
-/

def tblGet {α : Type} : List (Nat × α) → Nat → Option α
  | [], _ => none
  | (k', v) :: rest, k => if k' = k then some v else tblGet rest k

def tblDel {α : Type} (t : List (Nat × α)) (k : Nat) : List (Nat × α) :=
  t.filter (fun p => p.1 != k)

def tblSet {α : Type} (t : List (Nat × α)) (k : Nat) (v : α) : List (Nat × α) :=
  (k, v) :: tblDel t k

theorem tblGet_del_self {α : Type} (t : List (Nat × α)) (k : Nat) :
    tblGet (tblDel t k) k = none := by
  induction t with
  | nil => rfl
  | cons p rest ih =>
      obtain ⟨a, v⟩ := p
      rw [tblDel, List.filter_cons]
      by_cases ha : a = k
      · rw [show (a != k) = false by simp [ha]]
        simpa [tblDel] using ih
      · rw [show (a != k) = true by simp [ha], if_pos rfl, tblGet, if_neg ha]
        simpa [tblDel] using ih

theorem tblGet_del_ne {α : Type} (t : List (Nat × α)) (k k' : Nat) (h : k' ≠ k) :
    tblGet (tblDel t k) k' = tblGet t k' := by
  induction t with
  | nil => rfl
  | cons p rest ih =>
      obtain ⟨a, v⟩ := p
      rw [tblDel, List.filter_cons]
      by_cases ha : a = k
      · rw [show (a != k) = false by simp [ha],
          show tblGet ((a, v) :: rest) k' = tblGet rest k' from by
            rw [tblGet, if_neg (by omega)]]
        simpa [tblDel] using ih
      · rw [show (a != k) = true by simp [ha], if_pos rfl, tblGet, tblGet]
        by_cases ha' : a = k'
        · rw [if_pos ha', if_pos ha']
        · rw [if_neg ha', if_neg ha']
          simpa [tblDel] using ih

theorem tblGet_set_self {α : Type} (t : List (Nat × α)) (k : Nat) (v : α) :
    tblGet (tblSet t k v) k = some v := by
  simp [tblSet, tblGet]

theorem tblGet_set_ne {α : Type} (t : List (Nat × α)) (k k' : Nat) (v : α)
    (h : k' ≠ k) :
    tblGet (tblSet t k v) k' = tblGet t k' := by
  have : ¬ k = k' := by omega
  simp [tblSet, tblGet, this, tblGet_del_ne t k k' h]

/-!
## AES-CTR (`Crypto.Cipher.AES, MODE_CTR` as used by `unii_message.py`)

AES itself is an external library; counter-mode encryption XORs the data with a
keystream that is a function of the 16-byte shared key and of the 16-byte
counter-block seed (`initial_value`).  The embedding abstracts a key as the
keystream family it induces: a function from the counter-block seed and the
byte index to the keystream byte.  Every theorem about encryption is proved for
all such functions, so it holds in particular for real AES.
-/

/-- A shared key, represented by the keystream it induces:
`ks initial_value i` is byte `i` of the CTR keystream for that counter block
seed. -/
def KeyStream : Type := List Nat → Nat → Nat

/-- XOR a byte list with the keystream bytes starting at index `i`. -/
def ctrXor (ks : Nat → Nat) : Nat → List Nat → List Nat
  | _, [] => []
  | i, b :: rest => (b ^^^ ks i % 256) :: ctrXor ks (i + 1) rest

theorem ctrXor_length (ks : Nat → Nat) (i : Nat) (l : List Nat) :
    (ctrXor ks i l).length = l.length := by
  induction l generalizing i with
  | nil => rfl
  | cons b rest ih => simp [ctrXor, ih]

theorem ctrXor_ctrXor (ks : Nat → Nat) (i : Nat) (l : List Nat) :
    ctrXor ks i (ctrXor ks i l) = l := by
  induction l generalizing i with
  | nil => rfl
  | cons b rest ih =>
      simp [ctrXor, ih, Nat.xor_cancel_right]

/-!
## Commands (`UNiiCommand`, `src/unii/unii_command.py`)

The enumeration in `unii_command.py` of this source tree.  Note that
`INPUT_STATUS_UPDATE`, `REQUEST_OUTPUT_ARRANGEMENT`,
`RESPONSE_REQUEST_OUTPUT_ARRANGEMENT`, `REAUTHENTICATE` and
`RELOAD_CONFIGURATION` are *referenced* by `unii.py`/`unii_message.py` but are
*not defined* in `unii_command.py`; a reference to them raises
`AttributeError` at run time.
-/

def CONNECTION_REQUEST : Nat := 0x0001
def CONNECTION_REQUEST_RESPONSE : Nat := 0x0002
def CONNECTION_REQUEST_DENIED : Nat := 0x0003
def NORMAL_DISCONNECT : Nat := 0x0014
def POLL_ALIVE_REQUEST : Nat := 0x0012
def POLL_ALIVE_RESPONSE : Nat := 0x0013
def GENERAL_RESPONSE : Nat := 0x0101
def EVENT_OCCURRED : Nat := 0x0102
def RESPONSE_EVENT_OCCURRED : Nat := 0x0103
def FLUSH_EVENT_BUFFER : Nat := 0x0104
def INPUT_STATUS_CHANGED : Nat := 0x0105
def REQUEST_INPUT_STATUS : Nat := 0x0106
def DEVICE_STATUS_CHANGED : Nat := 0x0107
def REQUEST_DEVICE_STATUS : Nat := 0x0108
def CLEAR_ALARM_MEMORY : Nat := 0x0109
def REQUEST_READY_TO_ARM_SECTIONS : Nat := 0x0110
def RESPONSE_READY_TO_ARM_SECTIONS : Nat := 0x0111
def REQUEST_ARM_SECTION : Nat := 0x0112
def RESPONSE_ARM_SECTION : Nat := 0x0113
def REQUEST_DISARM_SECTION : Nat := 0x0114
def RESPONSE_DISARM_SECTION : Nat := 0x0115
def REQUEST_SECTION_STATUS : Nat := 0x0116
def RESPONSE_REQUEST_SECTION_STATUS : Nat := 0x0117
def REQUEST_TO_BYPASS_AN_INPUT : Nat := 0x0118
def RESPONSE_REQUEST_TO_BYPASS_AN_INPUT : Nat := 0x0119
def REQUEST_TO_UNBYPASS_AN_INPUT : Nat := 0x011A
def RESPONSE_REQUEST_TO_UNBYPASS_AN_INIPUT : Nat := 0x011B
def REQUEST_TO_SET_OUTPUT : Nat := 0x011C
def RESPONSE_REQUEST_TO_SET_OUTPUT : Nat := 0x011D
def REQUEST_OUTPUT_STATUS : Nat := 0x011E
def RESPONSE_REQUEST_OUTPUT_STATUS : Nat := 0x011F
def REQUEST_TO_RESET_ALARM : Nat := 0x0122
def RESPONSE_REQUEST_TO_RESET_ALARM : Nat := 0x0123
def EXIT_ENTRY_TIMER : Nat := 0x0124
def REQUEST_SECTION_ARRANGEMENT : Nat := 0x0130
def RESPONSE_REQUEST_SECTION_ARRANGEMENT : Nat := 0x0131
def REQUEST_GROUP_ARRANGEMENT : Nat := 0x0132
def RESPONSE_REQUEST_GROUP_ARRANGEMENT : Nat := 0x0133
def REQUEST_INPUT_ARRANGEMENT : Nat := 0x0140
def RESPONSE_REQUEST_INPUT_ARRANGEMENT : Nat := 0x0141
def REQUEST_EQUIPMENT_INFORMATION : Nat := 0x0142
def RESPONSE_REQUEST_EQUIPMENT_INFORMATION : Nat := 0x0143
def REQUEST_DATE_AND_TIME : Nat := 0x0144
def RESPONSE_REQUEST_DATE_AND_TIME : Nat := 0x0145
def WRITE_DATE_AND_TIME : Nat := 0x0146
def RESPONSE_WRITE_DATE_AND_TIME : Nat := 0x0147

/-- All values of the `UNiiCommand` enumeration; `UNiiCommand(x)` succeeds
exactly when `x` is in this list. -/
def uniiCommandCodes : List Nat :=
  [CONNECTION_REQUEST, CONNECTION_REQUEST_RESPONSE, CONNECTION_REQUEST_DENIED,
   NORMAL_DISCONNECT, POLL_ALIVE_REQUEST, POLL_ALIVE_RESPONSE, GENERAL_RESPONSE,
   EVENT_OCCURRED, RESPONSE_EVENT_OCCURRED, FLUSH_EVENT_BUFFER,
   INPUT_STATUS_CHANGED, REQUEST_INPUT_STATUS, DEVICE_STATUS_CHANGED,
   REQUEST_DEVICE_STATUS, CLEAR_ALARM_MEMORY, REQUEST_READY_TO_ARM_SECTIONS,
   RESPONSE_READY_TO_ARM_SECTIONS, REQUEST_ARM_SECTION, RESPONSE_ARM_SECTION,
   REQUEST_DISARM_SECTION, RESPONSE_DISARM_SECTION, REQUEST_SECTION_STATUS,
   RESPONSE_REQUEST_SECTION_STATUS, REQUEST_TO_BYPASS_AN_INPUT,
   RESPONSE_REQUEST_TO_BYPASS_AN_INPUT, REQUEST_TO_UNBYPASS_AN_INPUT,
   RESPONSE_REQUEST_TO_UNBYPASS_AN_INIPUT, REQUEST_TO_SET_OUTPUT,
   RESPONSE_REQUEST_TO_SET_OUTPUT, REQUEST_OUTPUT_STATUS,
   RESPONSE_REQUEST_OUTPUT_STATUS, REQUEST_TO_RESET_ALARM,
   RESPONSE_REQUEST_TO_RESET_ALARM, EXIT_ENTRY_TIMER,
   REQUEST_SECTION_ARRANGEMENT, RESPONSE_REQUEST_SECTION_ARRANGEMENT,
   REQUEST_GROUP_ARRANGEMENT, RESPONSE_REQUEST_GROUP_ARRANGEMENT,
   REQUEST_INPUT_ARRANGEMENT, RESPONSE_REQUEST_INPUT_ARRANGEMENT,
   REQUEST_EQUIPMENT_INFORMATION, RESPONSE_REQUEST_EQUIPMENT_INFORMATION,
   REQUEST_DATE_AND_TIME, RESPONSE_REQUEST_DATE_AND_TIME, WRITE_DATE_AND_TIME,
   RESPONSE_WRITE_DATE_AND_TIME]

theorem uniiCommandCodes_lt (c : Nat) (h : c ∈ uniiCommandCodes) : c < 65536 := by
  fin_cases h <;> decide

/-!
## Python exceptions raised by the record decoders
-/

/-- The message attached to a `ValueError` (the decode dispatch compares it
with the literal `Invalid block number`). -/
inductive ValueErrorMsg where
  | invalidMessageVersion
  | invalidBlockNumber
  | otherMsg
deriving DecidableEq, Repr

/-- The Python exception kinds relevant to the decoders: `ValueError`,
`LookupError` (`IndexError`/`KeyError`), `AttributeError`, anything else. -/
inductive PyExc where
  | valueError (msg : ValueErrorMsg)
  | lookupError
  | attributeError
  | otherExc
deriving DecidableEq, Repr

/-!
## Input records (`UNiiInput`, `UNiiInputArrangement`,
`src/unii/unii_command_data.py` 521-591)
-/

inductive UNiiInputType where
  | wired
  | keypad
  | spare
  | wireless
  | knx
  | door
deriving DecidableEq, Repr

inductive UNiiInputState where
  | input_ok
  | alarm
  | tamper
  | masking
  | disabled
deriving DecidableEq, Repr

/-- A decoded `UNiiInput` record.  `sensor_type` and `reaction` are kept as the
raw enum values (validated to be in range by the decoder); `name` is the raw
byte slice `data[5 : 5 + name_length]` (the source UTF-8-decodes and strips it,
which no claim inspects). -/
structure UNiiInputRec where
  number : Nat
  input_type : UNiiInputType
  sensor_type : Nat
  reaction : Nat
  name : Option (List Nat)
  sections : List Nat
  status : UNiiInputState
deriving DecidableEq, Repr

namespace UNiiInput

/-- `UNiiInput.__init__` (`unii_command_data.py` 529-554).  Single-index reads
out of range raise `IndexError` (→ `lookupError`); an out-of-range
`UNiiSensorType`/`UNiiReaction` value raises `ValueError`. -/
def init (data : List Nat) : Except PyExc UNiiInputRec :=
  let input_number := beBytesToNat (data.take 2)
  let input_type :=
    if 1 ≤ input_number ∧ input_number ≤ 512 then UNiiInputType.wired
    else if 701 ≤ input_number ∧ input_number ≤ 732 then UNiiInputType.keypad
    else if 601 ≤ input_number ∧ input_number ≤ 664 then UNiiInputType.wireless
    else if 801 ≤ input_number ∧ input_number ≤ 845 then UNiiInputType.knx
    else if 1001 ≤ input_number ∧ input_number ≤ 1128 then UNiiInputType.door
    else UNiiInputType.spare
  match data[2]? with
  | none => .error .lookupError
  | some sensor_type =>
    if sensor_type > 15 then .error (.valueError .otherMsg) else
    match data[3]? with
    | none => .error .lookupError
    | some reaction =>
      if reaction > 5 then .error (.valueError .otherMsg) else
      match data[4]? with
      | none => .error .lookupError
      | some name_length =>
        let name :=
          if name_length > 0 then some ((data.drop 5).take name_length) else none
        .ok ⟨input_number, input_type, sensor_type, reaction, name,
          bit_position_to_numeric (data.drop (5 + name_length)),
          UNiiInputState.disabled⟩

end UNiiInput

namespace UNiiInputArrangement

/-- The record loop of `UNiiInputArrangement.__init__`
(`unii_command_data.py` 580-587). -/
def initLoop (data : List Nat) (offset : Nat) (acc : List (Nat × UNiiInputRec)) :
    Except PyExc (List (Nat × UNiiInputRec)) :=
  if h : offset < data.length then
    match data[4 + offset]? with
    | none => .error .lookupError
    | some name_length =>
      match UNiiInput.init ((data.take (9 + offset + name_length)).drop offset) with
      | .error e => .error e
      | .ok inp => initLoop data (offset + (9 + name_length)) (tblSet acc inp.number inp)
  else .ok acc
termination_by data.length - offset
decreasing_by omega

/-- `UNiiInputArrangement.__init__` (`unii_command_data.py` 565-587): version
byte must be 2, block number 0xFFFF raises `ValueError` with message
`Invalid block number`, then the record loop runs. -/
def init (data : List Nat) : Except PyExc (Nat × List (Nat × UNiiInputRec)) :=
  match data[1]? with
  | none => .error .lookupError
  | some version =>
    if version ≠ 2 then .error (.valueError .invalidMessageVersion) else
    let block_number := beBytesToNat ((data.drop 2).take 2)
    if block_number = 0xFFFF then .error (.valueError .invalidBlockNumber) else
    match initLoop data 4 [] with
    | .ok tbl => .ok (block_number, tbl)
    | .error e => .error e

end UNiiInputArrangement

/-- Decoded payload data as dispatched by `UNiiResponseMessage.__init__`.  Only
the input-arrangement decoder is reachable concretely (see `parseData`); the
decoders behind the abstracted commands may produce any value. -/
inductive UNiiData where
  | rawData (raw : List Nat)
  | inputArrangement (block_number : Nat) (inputs : List (Nat × UNiiInputRec))
deriving DecidableEq, Repr


/-!
## Frame codec — encode (`UNiiRequestMessage`, `src/unii/unii_message.py`
166-279)

`to_bytes` is decomposed into named steps mirroring the commented blocks of the
source function: header, payload, padding, encryption, length insertion,
checksum.
-/

namespace UNiiRequestMessage

/-- `UNiiRequestMessage._create_header` (`unii_message.py` 186-209): 14 header
bytes; the length field (bytes 12-13) starts as zero. -/
def _create_header (session_id tx_sequence rx_sequence protocol_id command : Nat) :
    List Nat :=
  natToBeBytes 2 session_id ++ natToBeBytes 4 tx_sequence ++
    natToBeBytes 4 rx_sequence ++ [protocol_id] ++
    [if command < 8 then 1 else 2] ++ [0, 0]

/-- `UNiiRequestMessage._create_payload` (`unii_message.py` 211-230): command,
2-byte data length, data bytes.  `data = none` models `self.data is None`. -/
def _create_payload (command : Nat) (data : Option (List Nat)) : List Nat :=
  natToBeBytes 2 command ++
    natToBeBytes 2 (match data with | none => 0 | some d => d.length) ++
    (match data with | none => [] | some d => d)

/-- The `Add Padding` block of `to_bytes` (`unii_message.py` 244-248):
zero-pad the payload so that `len(header) + len(payload) + 2` becomes a
multiple of 16. -/
def _padded (header payload : List Nat) : List Nat :=
  payload ++ List.replicate (16 - (header.length + payload.length + 2) % 16) 0

/-- The encryption block of `to_bytes` (`unii_message.py` 250-264): AES-CTR
over the padded payload, seeded with the first 12 header bytes plus 4 zero
bytes; identity when no key is configured. -/
def _encrypted (shared_key : Option KeyStream) (header payload : List Nat) :
    List Nat :=
  match shared_key with
  | none => payload
  | some ks => ctrXor (ks (header.take 12 ++ [0, 0, 0, 0])) 0 payload

/-- The `Insert Total Packet Length` block of `to_bytes`
(`unii_message.py` 268-272): write `len(message) + 2` big-endian into bytes 12
and 13. -/
def _with_length (message : List Nat) : List Nat :=
  (message.set 12 ((natToBeBytes 2 (message.length + 2)).getD 0 0)).set 13
    ((natToBeBytes 2 (message.length + 2)).getD 1 0)

/-- `UNiiRequestMessage.to_bytes` (`unii_message.py` 232-279).  `shared_key` is
the abstract keystream family of the AES key (`none` = unencrypted, protocol
id 0x04; `some` = basic encryption, protocol id 0x05). -/
def to_bytes (session_id tx_sequence rx_sequence command : Nat)
    (data : Option (List Nat)) (shared_key : Option KeyStream) : List Nat :=
  let protocol_id : Nat := match shared_key with | none => 4 | some _ => 5
  let header := _create_header session_id tx_sequence rx_sequence protocol_id
    command
  let payload := _padded header (_create_payload command data)
  let message := _with_length (header ++ _encrypted shared_key header payload)
  message ++ natToBeBytes 2 (_calculate_crc16 message)

end UNiiRequestMessage

/-!
## Frame codec — decode (`UNiiResponseMessage`, `src/unii/unii_message.py`
282-421)
-/

/-- Outcomes of `UNiiResponseMessage.__init__` other than a decoded message:
the two `UNiiMessageError` subclasses with their carried values,
`UNiiInvallidMessageError` (raised when a record decoder fails), and Python
exceptions that escape `__init__` entirely (`escaped`): `IndexError` from
`header[10]` on a short message, `ValueError` from `UNiiProtocolID(...)` on an
unknown protocol byte, and the `AttributeError` raised *inside* the
`except ValueError` handler when it evaluates the missing enum member
`UNiiCommand.RESPONSE_REQUEST_OUTPUT_ARRANGEMENT`. -/
inductive UNiiMessageErr where
  | incompleteMessage (expected received : Nat)
  | checksumError (expected received : Nat)
  | invalidMessage
  | escaped (e : PyExc)
deriving DecidableEq, Repr

/-- The fields a successfully decoded `UNiiResponseMessage` carries.
`command = none` models the unknown-command fallback (`self.command = None`),
`data = none` models `self.data is None`. -/
structure UNiiResponseFields where
  session_id : Nat
  tx_sequence : Nat
  rx_sequence : Nat
  command : Option Nat
  data : Option UNiiData
deriving DecidableEq, Repr

/-- The `match self.command` dispatch of `UNiiResponseMessage.__init__`
(`unii_message.py` 352-415) together with its `except` clauses.

The decoders for `GENERAL_RESPONSE`, `RESPONSE_REQUEST_EQUIPMENT_INFORMATION`,
`RESPONSE_REQUEST_SECTION_ARRANGEMENT`, `RESPONSE_REQUEST_SECTION_STATUS`,
`RESPONSE_READY_TO_ARM_SECTIONS`, `RESPONSE_ARM_SECTION`,
`RESPONSE_DISARM_SECTION` and `INPUT_STATUS_CHANGED` are abstracted as the
parameter `other` (every theorem below holds for all instantiations); the
input-arrangement decoder is embedded concretely.

Exception flow of the source, reproduced here:
  * a `ValueError` from any decoder enters the `except ValueError` handler,
    which evaluates `self.command in
    [UNiiCommand.RESPONSE_REQUEST_INPUT_ARRANGEMENT,
    UNiiCommand.RESPONSE_REQUEST_OUTPUT_ARRANGEMENT]`; the second member does
    not exist in `unii_command.py`, so the handler itself raises
    `AttributeError`, which escapes `__init__` (`escaped .attributeError`) —
    the `pass` path for `Invalid block number` is unreachable;
  * a `LookupError` (`IndexError`/`KeyError`) is re-raised as
    `UNiiInvallidMessageError` (`invalidMessage`);
  * any other exception hits the broad `except Exception` and becomes
    `UNiiInvallidMessageError`.  In particular, for every command that falls
    past the `INPUT_STATUS_CHANGED` case (including `DEVICE_STATUS_CHANGED`,
    `EVENT_OCCURRED`, the unknown-command fallback and the raw-data catch-all),
    evaluating the *pattern* `UNiiCommand.INPUT_STATUS_UPDATE` (also missing
    from `unii_command.py`) raises `AttributeError` inside the `try`, which the
    broad handler turns into `UNiiInvallidMessageError`. -/
def parseData (other : Nat → List Nat → Except PyExc UNiiData)
    (command : Option Nat) (raw : List Nat) :
    Except UNiiMessageErr (Option UNiiData) :=
  match command with
  | some c =>
    if c = GENERAL_RESPONSE ∨ c = RESPONSE_REQUEST_EQUIPMENT_INFORMATION ∨
        c = RESPONSE_REQUEST_SECTION_ARRANGEMENT ∨
        c = RESPONSE_REQUEST_SECTION_STATUS ∨
        c = RESPONSE_READY_TO_ARM_SECTIONS ∨ c = RESPONSE_ARM_SECTION ∨
        c = RESPONSE_DISARM_SECTION ∨ c = INPUT_STATUS_CHANGED then
      match other c raw with
      | .ok v => .ok (some v)
      | .error (.valueError _) => .error (.escaped .attributeError)
      | .error .lookupError => .error .invalidMessage
      | .error .attributeError => .error .invalidMessage
      | .error .otherExc => .error .invalidMessage
    else if c = RESPONSE_REQUEST_INPUT_ARRANGEMENT then
      match UNiiInputArrangement.init raw with
      | .ok v => .ok (some (.inputArrangement v.1 v.2))
      | .error (.valueError _) => .error (.escaped .attributeError)
      | .error _ => .error .invalidMessage
    else .error .invalidMessage
  | none => .error .invalidMessage

/-- `UNiiResponseMessage.__init__` after the length and checksum checks have
passed (`unii_message.py` 313-416). -/
def UNiiResponseMessage.initRest (message : List Nat)
    (shared_key : Option KeyStream)
    (other : Nat → List Nat → Except PyExc UNiiData) :
    Except UNiiMessageErr UNiiResponseFields :=
  let header := message.take 14
  let payload0 := (message.take (message.length - 2)).drop 14
  let session_id := beBytesToNat (header.take 2)
  let tx_sequence := beBytesToNat ((header.drop 2).take 4)
  let rx_sequence := beBytesToNat ((header.drop 6).take 4)
  match header[10]? with
  | none => .error (.escaped .lookupError)
  | some protocol_byte =>
    if protocol_byte = 4 ∨ protocol_byte = 5 then
      let payload :=
        if protocol_byte = 5 then
          match shared_key with
          | some ks => ctrXor (ks (header.take 12 ++ [0, 0, 0, 0])) 0 payload0
          | none => payload0
        else payload0
      let command := beBytesToNat (payload.take 2)
      let cmd : Option Nat :=
        if command ∈ uniiCommandCodes then some command else none
      let data_length := beBytesToNat ((payload.drop 2).take 2)
      if data_length = 0 then
        .ok ⟨session_id, tx_sequence, rx_sequence, cmd, none⟩
      else
        match parseData other cmd ((payload.drop 4).take data_length) with
        | .ok d => .ok ⟨session_id, tx_sequence, rx_sequence, cmd, d⟩
        | .error e => .error e
    else .error (.escaped (.valueError .otherMsg))

/-- `UNiiResponseMessage.__init__` (`unii_message.py` 290-416): verify the
total-length field against the actual length (`UNiiIncompleteMessageError`
carrying expected and received lengths), verify the CRC-16 over all bytes but
the last two against the trailing two bytes (`UNiiChecksumError` carrying the
expected and received checksums), then parse the header fields, optionally
decrypt, and dispatch the payload.  In the failure cases the partially
constructed object is discarded, so no message fields are produced. -/
def UNiiResponseMessage.init (message : List Nat) (shared_key : Option KeyStream)
    (other : Nat → List Nat → Except PyExc UNiiData) :
    Except UNiiMessageErr UNiiResponseFields :=
  let header := message.take 14
  let packet_length := beBytesToNat ((header.drop 12).take 2)
  if packet_length ≠ message.length then
    .error (.incompleteMessage packet_length message.length)
  else
    let received_checksum := beBytesToNat (message.drop (message.length - 2))
    let expected_checksum := _calculate_crc16 (message.take (message.length - 2))
    if received_checksum ≠ expected_checksum then
      .error (.checksumError expected_checksum received_checksum)
    else
      UNiiResponseMessage.initRest message shared_key other

/-- A decoder instantiation used by concrete witnesses (the theorems quantify
over the parameter, so any value works). -/
def otherFails : Nat → List Nat → Except PyExc UNiiData :=
  fun _ _ => .error .otherExc

set_option maxRecDepth 8192 in
/-- Golden vector from the repository's own test
`test_unencrypted_connection_request`: the encoder reproduces the byte string
`ffff08be2c530000000004010020000100000000000000000000000000005ed3`. -/
theorem to_bytes_test_vector :
    UNiiRequestMessage.to_bytes 0xFFFF 0x08BE2C53 0x00000000 CONNECTION_REQUEST
        none none =
      [0xff, 0xff, 0x08, 0xbe, 0x2c, 0x53, 0x00, 0x00, 0x00, 0x00, 0x04, 0x01,
       0x00, 0x20, 0x00, 0x01, 0x00, 0x00, 0x00, 0x00, 0x00, 0x00, 0x00, 0x00,
       0x00, 0x00, 0x00, 0x00, 0x00, 0x00, 0x5e, 0xd3] := by
  decide

set_option maxRecDepth 8192 in
/-- Golden vector from the repository's own test
`test_unencrypted_connection_response` (also §8 of the specification): decoding
`f109441a389608be2c530402001400020000853e` yields session id 0xF109,
tx sequence 0x441A3896, rx sequence 0x08BE2C53,
command CONNECTION_REQUEST_RESPONSE and absent data. -/
theorem response_test_vector :
    UNiiResponseMessage.init
        [0xf1, 0x09, 0x44, 0x1a, 0x38, 0x96, 0x08, 0xbe, 0x2c, 0x53, 0x04,
         0x02, 0x00, 0x14, 0x00, 0x02, 0x00, 0x00, 0x85, 0x3e] none otherFails =
      .ok ⟨0xF109, 0x441A3896, 0x08BE2C53, some CONNECTION_REQUEST_RESPONSE, none⟩ := by
  decide

/-!
## Canonical form of the encoder output
-/

theorem natToBeBytes_two (n : Nat) :
    natToBeBytes 2 n = [n / 256 % 256, n % 256] := rfl

theorem natToBeBytes_two_getD0 (n : Nat) :
    (natToBeBytes 2 n).getD 0 0 = n / 256 % 256 := rfl

theorem natToBeBytes_two_getD1 (n : Nat) :
    (natToBeBytes 2 n).getD 1 0 = n % 256 := rfl

/-- Setting indices 12 and 13 of a list that starts with a 12-element prefix. -/
theorem set12_13_concat (l12 : List Nat) (x y : Nat) (t : List Nat) (A B : Nat)
    (h : l12.length = 12) :
    ((l12 ++ x :: y :: t).set 12 A).set 13 B = l12 ++ A :: B :: t := by
  have e1 : (x :: y :: t).set (12 - 12) A = A :: y :: t := rfl
  have e2 : (A :: y :: t).set (13 - 12) B = A :: B :: t := rfl
  rw [List.set_append, if_neg (by omega), h, e1, List.set_append,
    if_neg (by omega), h, e2]

theorem with_length_length (m : List Nat) :
    (UNiiRequestMessage._with_length m).length = m.length := by
  simp [UNiiRequestMessage._with_length]

/-- `_with_length` of a message of at least 14 bytes: the first 12 bytes stay,
bytes 12 and 13 become the big-endian total length, the rest stays. -/
theorem with_length_eq (m : List Nat) (h : 14 ≤ m.length) :
    UNiiRequestMessage._with_length m =
      m.take 12 ++ (m.length + 2) / 256 % 256 :: (m.length + 2) % 256 :: m.drop 14 := by
  have h12 : (m.take 12).length = 12 := by
    rw [List.length_take]
    omega
  rcases hd : m.drop 12 with _ | ⟨x, rest⟩
  · have := List.length_drop 12 m
    rw [hd] at this
    simp at this
    omega
  · rcases rest with _ | ⟨y, t⟩
    · have := List.length_drop 12 m
      rw [hd] at this
      simp at this
      omega
    · have ht : m.drop 14 = t := by
        have e : m.drop 14 = (m.drop 12).drop 2 := by
          rw [List.drop_drop]
        rw [e, hd]
        rfl
      have hm : m.take 12 ++ x :: y :: t = m := by
        rw [← hd, List.take_append_drop]
      rw [UNiiRequestMessage._with_length, natToBeBytes_two_getD0,
        natToBeBytes_two_getD1, ht]
      conv_lhs => rw [← hm]
      rw [set12_13_concat _ _ _ _ _ _ h12, hm]

/-- The payload bytes before padding. -/
theorem create_payload_eq (command : Nat) (data : Option (List Nat)) :
    UNiiRequestMessage._create_payload command data =
      natToBeBytes 2 command ++ natToBeBytes 2 (data.getD []).length ++
        data.getD [] := by
  cases data <;> simp [UNiiRequestMessage._create_payload]

theorem create_payload_length (command : Nat) (data : Option (List Nat)) :
    (UNiiRequestMessage._create_payload command data).length =
      4 + (data.getD []).length := by
  rw [create_payload_eq]
  simp [natToBeBytes_length]
  omega

/-- `UNiiRequestMessage.to_bytes` as one explicit append chain: 12-byte header
prefix, 2-byte total length, (possibly encrypted) padded body, 2-byte CRC. -/
theorem to_bytes_eq (session_id tx_sequence rx_sequence command : Nat)
    (data : Option (List Nat)) (key : Option KeyStream)
    (pid total : Nat) (hdr12 enc : List Nat)
    (hpid : pid = match key with | none => 4 | some _ => 5)
    (hhdr : hdr12 = natToBeBytes 2 session_id ++ natToBeBytes 4 tx_sequence ++
      natToBeBytes 4 rx_sequence ++ [pid] ++ [if command < 8 then 1 else 2])
    (henc : enc = UNiiRequestMessage._encrypted key (hdr12 ++ [0, 0])
      (UNiiRequestMessage._padded (hdr12 ++ [0, 0])
        (UNiiRequestMessage._create_payload command data)))
    (htotal : total = 20 + (data.getD []).length +
      (16 - (20 + (data.getD []).length) % 16)) :
    UNiiRequestMessage.to_bytes session_id tx_sequence rx_sequence command data
        key =
      (hdr12 ++ total / 256 % 256 :: total % 256 :: enc) ++
        natToBeBytes 2
          (_calculate_crc16 (hdr12 ++ total / 256 % 256 :: total % 256 :: enc)) := by
  subst hhdr henc htotal
  simp only [UNiiRequestMessage.to_bytes, UNiiRequestMessage._create_header]
  rw [← hpid]
  have h12 : (natToBeBytes 2 session_id ++ natToBeBytes 4 tx_sequence ++
      natToBeBytes 4 rx_sequence ++ [pid] ++
      [if command < 8 then 1 else 2]).length = 12 := by
    simp [natToBeBytes_length]
  have hHlen : (natToBeBytes 2 session_id ++ natToBeBytes 4 tx_sequence ++
      natToBeBytes 4 rx_sequence ++ [pid] ++
      [if command < 8 then 1 else 2] ++ [0, 0]).length = 14 := by
    simp [natToBeBytes_length]
  have hPlen : ∀ hdr pay : List Nat,
      (UNiiRequestMessage._padded hdr pay).length =
        pay.length + (16 - (hdr.length + pay.length + 2) % 16) := by
    intro hdr pay
    simp [UNiiRequestMessage._padded]
  have hEl : ∀ (k : Option KeyStream) (hdr pay : List Nat),
      (UNiiRequestMessage._encrypted k hdr pay).length = pay.length := by
    intro k hdr pay
    cases k <;> simp [UNiiRequestMessage._encrypted, ctrXor_length]
  have hHL : ((natToBeBytes 2 session_id ++ natToBeBytes 4 tx_sequence ++
      natToBeBytes 4 rx_sequence ++ [pid] ++
      [if command < 8 then 1 else 2]) ++ [0, 0]).length = 14 := by
    simp [natToBeBytes_length]
  rw [with_length_eq _ (by
    rw [List.length_append, hHL]
    omega)]
  rw [List.take_append_of_le_length (by rw [hHL]; omega),
    List.take_left' h12, List.drop_left' hHL]
  have hdlE : (UNiiRequestMessage._encrypted key
      ((natToBeBytes 2 session_id ++ natToBeBytes 4 tx_sequence ++
        natToBeBytes 4 rx_sequence ++ [pid] ++
        [if command < 8 then 1 else 2]) ++ [0, 0])
      (UNiiRequestMessage._padded
        ((natToBeBytes 2 session_id ++ natToBeBytes 4 tx_sequence ++
          natToBeBytes 4 rx_sequence ++ [pid] ++
          [if command < 8 then 1 else 2]) ++ [0, 0])
        (UNiiRequestMessage._create_payload command data))).length =
      4 + (data.getD []).length + (16 - (20 + (data.getD []).length) % 16) := by
    rw [hEl, hPlen, create_payload_length, hHL]
    omega
  have htot : (((natToBeBytes 2 session_id ++ natToBeBytes 4 tx_sequence ++
      natToBeBytes 4 rx_sequence ++ [pid] ++
      [if command < 8 then 1 else 2]) ++ [0, 0]) ++
      UNiiRequestMessage._encrypted key
        ((natToBeBytes 2 session_id ++ natToBeBytes 4 tx_sequence ++
          natToBeBytes 4 rx_sequence ++ [pid] ++
          [if command < 8 then 1 else 2]) ++ [0, 0])
        (UNiiRequestMessage._padded
          ((natToBeBytes 2 session_id ++ natToBeBytes 4 tx_sequence ++
            natToBeBytes 4 rx_sequence ++ [pid] ++
            [if command < 8 then 1 else 2]) ++ [0, 0])
          (UNiiRequestMessage._create_payload command data))).length + 2 =
      20 + (data.getD []).length + (16 - (20 + (data.getD []).length) % 16) := by
    rw [List.length_append, hHL, hdlE]
    omega
  rw [htot]

theorem padded_length (header payload : List Nat) :
    (UNiiRequestMessage._padded header payload).length =
      payload.length + (16 - (header.length + payload.length + 2) % 16) := by
  simp [UNiiRequestMessage._padded]

theorem encrypted_length (k : Option KeyStream) (header payload : List Nat) :
    (UNiiRequestMessage._encrypted k header payload).length = payload.length := by
  cases k <;> simp [UNiiRequestMessage._encrypted, ctrXor_length]

/-- Decoding an encoded request with the same key: the frame checks pass, the
header fields decode to the original values, the body decrypts back, and the
command/data dispatch runs on the original data bytes. -/
theorem init_to_bytes (session_id tx_sequence rx_sequence command : Nat)
    (data : Option (List Nat)) (key : Option KeyStream)
    (other : Nat → List Nat → Except PyExc UNiiData)
    (h1 : session_id < 65536) (h2 : tx_sequence < 4294967296)
    (h3 : rx_sequence < 4294967296) (h4 : command < 65536)
    (h5 : (data.getD []).length ≤ 65000) :
    UNiiResponseMessage.init
        (UNiiRequestMessage.to_bytes session_id tx_sequence rx_sequence command
          data key) key other =
      if (data.getD []).length = 0 then
        .ok ⟨session_id, tx_sequence, rx_sequence,
          (if command ∈ uniiCommandCodes then some command else none), none⟩
      else
        match parseData other
            (if command ∈ uniiCommandCodes then some command else none)
            (data.getD []) with
        | .ok d => .ok ⟨session_id, tx_sequence, rx_sequence,
            (if command ∈ uniiCommandCodes then some command else none), d⟩
        | .error e => .error e := by
  rw [to_bytes_eq session_id tx_sequence rx_sequence command data key _ _ _ _
    rfl rfl rfl rfl]
  generalize hpid : (match key with | none => (4 : Nat) | some _ => 5) = pid
  generalize ha2 : natToBeBytes 2 session_id = a2
  generalize ht4 : natToBeBytes 4 tx_sequence = t4
  generalize hr4 : natToBeBytes 4 rx_sequence = r4
  generalize hpt : (if command < 8 then (1 : Nat) else 2) = pt
  generalize henc : UNiiRequestMessage._encrypted key
    ((a2 ++ t4 ++ r4 ++ [pid] ++ [pt]) ++ [0, 0])
    (UNiiRequestMessage._padded ((a2 ++ t4 ++ r4 ++ [pid] ++ [pt]) ++ [0, 0])
      (UNiiRequestMessage._create_payload command data)) = enc
  generalize hT : 20 + (data.getD []).length +
    (16 - (20 + (data.getD []).length) % 16) = total
  have ha2l : a2.length = 2 := by
    rw [← ha2]
    exact natToBeBytes_length 2 session_id
  have ht4l : t4.length = 4 := by
    rw [← ht4]
    exact natToBeBytes_length 4 tx_sequence
  have hr4l : r4.length = 4 := by
    rw [← hr4]
    exact natToBeBytes_length 4 rx_sequence
  have h12 : (a2 ++ t4 ++ r4 ++ [pid] ++ [pt]).length = 12 := by
    simp [ha2l, ht4l, hr4l]
  have hsid : beBytesToNat a2 = session_id := by
    rw [← ha2, beBytesToNat_natToBeBytes,
      show (256 : Nat) ^ 2 = 65536 from by norm_num]
    exact Nat.mod_eq_of_lt h1
  have htxv : beBytesToNat t4 = tx_sequence := by
    rw [← ht4, beBytesToNat_natToBeBytes,
      show (256 : Nat) ^ 4 = 4294967296 from by norm_num]
    exact Nat.mod_eq_of_lt h2
  have hrxv : beBytesToNat r4 = rx_sequence := by
    rw [← hr4, beBytesToNat_natToBeBytes,
      show (256 : Nat) ^ 4 = 4294967296 from by norm_num]
    exact Nat.mod_eq_of_lt h3
  have hencl : enc.length = 4 + (data.getD []).length +
      (16 - (20 + (data.getD []).length) % 16) := by
    rw [← henc, encrypted_length, padded_length, create_payload_length]
    have h14 : ((a2 ++ t4 ++ r4 ++ [pid] ++ [pt]) ++ [0, 0]).length = 14 := by
      simp [ha2l, ht4l, hr4l]
    rw [h14]
    omega
  have htlt : total < 65536 := by omega
  obtain ⟨crcB, hcB⟩ : ∃ l, natToBeBytes 2 (_calculate_crc16
      ((a2 ++ t4 ++ r4 ++ [pid] ++ [pt]) ++
        total / 256 % 256 :: total % 256 :: enc)) = l := ⟨_, rfl⟩
  rw [hcB]
  have hcBl : crcB.length = 2 := by
    rw [← hcB]
    exact natToBeBytes_length _ _
  have hrecv : beBytesToNat crcB = _calculate_crc16
      ((a2 ++ t4 ++ r4 ++ [pid] ++ [pt]) ++
        total / 256 % 256 :: total % 256 :: enc) := by
    rw [← hcB, beBytesToNat_natToBeBytes,
      show (256 : Nat) ^ 2 = 65536 from by norm_num]
    exact Nat.mod_eq_of_lt (_calculate_crc16_lt _)
  have houtl : (((a2 ++ t4 ++ r4 ++ [pid] ++ [pt]) ++
      total / 256 % 256 :: total % 256 :: enc) ++ crcB).length = total := by
    simp [List.length_append, ha2l, ht4l, hr4l, hcBl]
    omega
  have f1 : (((a2 ++ t4 ++ r4 ++ [pid] ++ [pt]) ++
      total / 256 % 256 :: total % 256 :: enc) ++ crcB).take 14 =
      (a2 ++ t4 ++ r4 ++ [pid] ++ [pt]) ++ [total / 256 % 256, total % 256] := by
    have hre : ((a2 ++ t4 ++ r4 ++ [pid] ++ [pt]) ++
        total / 256 % 256 :: total % 256 :: enc) ++ crcB =
        ((a2 ++ t4 ++ r4 ++ [pid] ++ [pt]) ++
          [total / 256 % 256, total % 256]) ++ (enc ++ crcB) := by
      simp
    rw [hre, List.take_left' (by simp [ha2l, ht4l, hr4l])]
  have hplv : beBytesToNat (((((a2 ++ t4 ++ r4 ++ [pid] ++ [pt]) ++
      total / 256 % 256 :: total % 256 :: enc) ++ crcB).take 14).drop 12 |>.take 2) =
      total := by
    rw [f1, List.drop_left' h12, List.take_of_length_le (by simp)]
    simp [beBytesToNat]
    omega
  rw [UNiiResponseMessage.init]
  rw [hplv, houtl, if_neg (by omega)]
  have hsubW : total - 2 = ((a2 ++ t4 ++ r4 ++ [pid] ++ [pt]) ++
      total / 256 % 256 :: total % 256 :: enc).length := by
    have := houtl
    rw [List.length_append, hcBl] at this
    omega
  have hdropC : (((a2 ++ t4 ++ r4 ++ [pid] ++ [pt]) ++
      total / 256 % 256 :: total % 256 :: enc) ++ crcB).drop (total - 2) = crcB := by
    rw [hsubW]
    exact List.drop_left _ _
  have htakeC : (((a2 ++ t4 ++ r4 ++ [pid] ++ [pt]) ++
      total / 256 % 256 :: total % 256 :: enc) ++ crcB).take (total - 2) =
      (a2 ++ t4 ++ r4 ++ [pid] ++ [pt]) ++
        total / 256 % 256 :: total % 256 :: enc := by
    rw [hsubW]
    exact List.take_left _ _
  rw [hdropC, htakeC, hrecv, if_neg (by simp)]
  rw [UNiiResponseMessage.initRest.eq_def]
  rw [houtl, htakeC, f1]
  have hd14 : ((a2 ++ t4 ++ r4 ++ [pid] ++ [pt]) ++
      total / 256 % 256 :: total % 256 :: enc).drop 14 = enc := by
    have hre2 : (a2 ++ t4 ++ r4 ++ [pid] ++ [pt]) ++
        total / 256 % 256 :: total % 256 :: enc =
        ((a2 ++ t4 ++ r4 ++ [pid] ++ [pt]) ++
          [total / 256 % 256, total % 256]) ++ enc := by
      simp
    rw [hre2, List.drop_left' (by simp [ha2l, ht4l, hr4l])]
  rw [hd14]
  simp only []
  have hg1 : (a2 ++ t4 ++ r4 ++ [pid] ++ [pt]) ++
      [total / 256 % 256, total % 256] =
      a2 ++ (t4 ++ (r4 ++ ([pid] ++ ([pt] ++
        [total / 256 % 256, total % 256])))) := by
    simp
  have hses : beBytesToNat (((a2 ++ t4 ++ r4 ++ [pid] ++ [pt]) ++
      [total / 256 % 256, total % 256]).take 2) = session_id := by
    rw [hg1, List.take_left' ha2l]
    exact hsid
  have htxf : beBytesToNat ((((a2 ++ t4 ++ r4 ++ [pid] ++ [pt]) ++
      [total / 256 % 256, total % 256]).drop 2).take 4) = tx_sequence := by
    rw [hg1, List.drop_left' ha2l, List.take_left' ht4l]
    exact htxv
  have hg2 : (a2 ++ t4 ++ r4 ++ [pid] ++ [pt]) ++
      [total / 256 % 256, total % 256] =
      (a2 ++ t4) ++ (r4 ++ ([pid] ++ ([pt] ++
        [total / 256 % 256, total % 256]))) := by
    simp
  have hrxf : beBytesToNat ((((a2 ++ t4 ++ r4 ++ [pid] ++ [pt]) ++
      [total / 256 % 256, total % 256]).drop 6).take 4) = rx_sequence := by
    rw [hg2, List.drop_left' (by simp [ha2l, ht4l]), List.take_left' hr4l]
    exact hrxv
  rw [hses, htxf, hrxf]
  have hgetp : ((a2 ++ t4 ++ r4 ++ [pid] ++ [pt]) ++
      [total / 256 % 256, total % 256])[10]? = some pid := by
    have hg3 : (a2 ++ t4 ++ r4 ++ [pid] ++ [pt]) ++
        [total / 256 % 256, total % 256] =
        (a2 ++ t4 ++ r4) ++ ([pid] ++ ([pt] ++
          [total / 256 % 256, total % 256])) := by
      simp
    rw [hg3, List.getElem?_append_right (by simp [ha2l, ht4l, hr4l])]
    simp [ha2l, ht4l, hr4l]
  rw [hgetp]
  simp only []
  have hp45 : pid = 4 ∨ pid = 5 := by
    cases key with
    | none => exact Or.inl hpid.symm
    | some ks => exact Or.inr hpid.symm
  rw [if_pos hp45, List.take_left' h12]
  have hpadded : UNiiRequestMessage._padded
      ((a2 ++ t4 ++ r4 ++ [pid] ++ [pt]) ++ [0, 0])
      (UNiiRequestMessage._create_payload command data) =
      (natToBeBytes 2 command ++ natToBeBytes 2 (data.getD []).length ++
        data.getD []) ++
        List.replicate (16 - (20 + (data.getD []).length) % 16) 0 := by
    rw [UNiiRequestMessage._padded, create_payload_eq]
    have hcount : ((a2 ++ t4 ++ r4 ++ [pid] ++ [pt]) ++ [0, 0]).length +
        (natToBeBytes 2 command ++ natToBeBytes 2 (data.getD []).length ++
          data.getD []).length + 2 = 20 + (data.getD []).length := by
      simp [ha2l, ht4l, hr4l, natToBeBytes_length]
      omega
    rw [hcount]
  have hcmdv : beBytesToNat (((natToBeBytes 2 command ++
      natToBeBytes 2 (data.getD []).length ++ data.getD []) ++
      List.replicate (16 - (20 + (data.getD []).length) % 16) 0).take 2) =
      command := by
    have hr : (natToBeBytes 2 command ++ natToBeBytes 2 (data.getD []).length ++
        data.getD []) ++
        List.replicate (16 - (20 + (data.getD []).length) % 16) 0 =
        natToBeBytes 2 command ++ (natToBeBytes 2 (data.getD []).length ++
          (data.getD [] ++
            List.replicate (16 - (20 + (data.getD []).length) % 16) 0)) := by
      simp
    rw [hr, List.take_left' (natToBeBytes_length 2 command),
      beBytesToNat_natToBeBytes, show (256 : Nat) ^ 2 = 65536 from by norm_num]
    exact Nat.mod_eq_of_lt h4
  have hdlv : beBytesToNat ((((natToBeBytes 2 command ++
      natToBeBytes 2 (data.getD []).length ++ data.getD []) ++
      List.replicate (16 - (20 + (data.getD []).length) % 16) 0).drop 2).take 2) =
      (data.getD []).length := by
    have hr : (natToBeBytes 2 command ++ natToBeBytes 2 (data.getD []).length ++
        data.getD []) ++
        List.replicate (16 - (20 + (data.getD []).length) % 16) 0 =
        natToBeBytes 2 command ++ (natToBeBytes 2 (data.getD []).length ++
          (data.getD [] ++
            List.replicate (16 - (20 + (data.getD []).length) % 16) 0)) := by
      simp
    rw [hr, List.drop_left' (natToBeBytes_length 2 command),
      List.take_left' (natToBeBytes_length 2 (data.getD []).length),
      beBytesToNat_natToBeBytes, show (256 : Nat) ^ 2 = 65536 from by norm_num]
    exact Nat.mod_eq_of_lt (by omega)
  have hslice : (((natToBeBytes 2 command ++
      natToBeBytes 2 (data.getD []).length ++ data.getD []) ++
      List.replicate (16 - (20 + (data.getD []).length) % 16) 0).drop 4).take
      (data.getD []).length = data.getD [] := by
    have hr : (natToBeBytes 2 command ++ natToBeBytes 2 (data.getD []).length ++
        data.getD []) ++
        List.replicate (16 - (20 + (data.getD []).length) % 16) 0 =
        (natToBeBytes 2 command ++ natToBeBytes 2 (data.getD []).length) ++
          (data.getD [] ++
            List.replicate (16 - (20 + (data.getD []).length) % 16) 0) := by
      simp
    rw [hr, List.drop_left' (by simp [natToBeBytes_length]),
      List.take_append_of_le_length (le_refl _), List.take_length]
  cases key with
  | none =>
      have hp4 : (4 : Nat) = pid := hpid
      rw [if_neg (show ¬ pid = 5 by omega), ← henc]
      simp only [UNiiRequestMessage._encrypted]
      rw [hpadded, hcmdv, hdlv, hslice]
  | some ks =>
      have hp5 : (5 : Nat) = pid := hpid
      rw [if_pos (show pid = 5 by omega)]
      simp only []
      rw [← henc]
      simp only [UNiiRequestMessage._encrypted]
      rw [List.take_left' h12, ctrXor_ctrXor]
      rw [hpadded, hcmdv, hdlv, hslice]

/-!
## Claims about the frame codec
-/

/-- Claim C1: for every request with a 16-bit session id, 32-bit tx and rx
sequence numbers, a valid command and empty payload, and for any optional
shared key (modelled by the keystream family it induces), decoding the bytes
produced by `to_bytes` with the same key succeeds and returns the original
session id, tx sequence, rx sequence and command, with `data` absent. -/
theorem frame_codec_roundtrip (session_id tx_sequence rx_sequence command : Nat)
    (key : Option KeyStream) (other : Nat → List Nat → Except PyExc UNiiData)
    (h1 : session_id < 2 ^ 16) (h2 : tx_sequence < 2 ^ 32)
    (h3 : rx_sequence < 2 ^ 32) (hc : command ∈ uniiCommandCodes) :
    UNiiResponseMessage.init
        (UNiiRequestMessage.to_bytes session_id tx_sequence rx_sequence command
          none key) key other =
      .ok ⟨session_id, tx_sequence, rx_sequence, some command, none⟩ := by
  have h1' : session_id < 65536 := by norm_num at h1; exact h1
  have h2' : tx_sequence < 4294967296 := by norm_num at h2; exact h2
  have h3' : rx_sequence < 4294967296 := by norm_num at h3; exact h3
  have h4' : command < 65536 := uniiCommandCodes_lt command hc
  rw [init_to_bytes session_id tx_sequence rx_sequence command none key other
    h1' h2' h3' h4' (by simp [Option.getD])]
  simp only [Option.getD, List.length_nil, if_pos rfl]
  rw [if_pos hc]
  simp

/-- Keystream instantiation used by witnesses (any function works: the
theorems quantify over the keystream). -/
def ksWitness : KeyStream := fun iv i => iv.headD 0 + i

set_option maxRecDepth 16384 in
/-- Witness for C1 at a concrete encrypted instance. -/
theorem frame_codec_roundtrip_witness :
    UNiiResponseMessage.init
        (UNiiRequestMessage.to_bytes 0xF109 0x441A3896 0x08BE2C53
          CONNECTION_REQUEST none (some ksWitness)) (some ksWitness) otherFails =
      .ok ⟨0xF109, 0x441A3896, 0x08BE2C53, some CONNECTION_REQUEST, none⟩ :=
  frame_codec_roundtrip 0xF109 0x441A3896 0x08BE2C53 CONNECTION_REQUEST
    (some ksWitness) otherFails (by decide) (by decide) (by decide) (by decide)

/-- Claim C9: for every message produced by `to_bytes` (with or without a
shared key), the 16-bit total-length field at header bytes 12-13 equals the
exact length of the produced wire bytes, and that total length is a multiple
of 16. -/
theorem encoded_length_invariant (session_id tx_sequence rx_sequence command : Nat)
    (data : Option (List Nat)) (key : Option KeyStream)
    (h1 : session_id < 2 ^ 16) (h2 : tx_sequence < 2 ^ 32)
    (h3 : rx_sequence < 2 ^ 32) (h4 : command < 2 ^ 16)
    (h5 : (data.getD []).length ≤ 65000) :
    beBytesToNat (((UNiiRequestMessage.to_bytes session_id tx_sequence
        rx_sequence command data key).drop 12).take 2) =
      (UNiiRequestMessage.to_bytes session_id tx_sequence rx_sequence command
        data key).length ∧
    (UNiiRequestMessage.to_bytes session_id tx_sequence rx_sequence command
        data key).length % 16 = 0 := by
  rw [to_bytes_eq session_id tx_sequence rx_sequence command data key _ _ _ _
    rfl rfl rfl rfl]
  generalize hpid : (match key with | none => (4 : Nat) | some _ => 5) = pid
  generalize ha2 : natToBeBytes 2 session_id = a2
  generalize ht4 : natToBeBytes 4 tx_sequence = t4
  generalize hr4 : natToBeBytes 4 rx_sequence = r4
  generalize hpt : (if command < 8 then (1 : Nat) else 2) = pt
  generalize henc : UNiiRequestMessage._encrypted key
    ((a2 ++ t4 ++ r4 ++ [pid] ++ [pt]) ++ [0, 0])
    (UNiiRequestMessage._padded ((a2 ++ t4 ++ r4 ++ [pid] ++ [pt]) ++ [0, 0])
      (UNiiRequestMessage._create_payload command data)) = enc
  generalize hT : 20 + (data.getD []).length +
    (16 - (20 + (data.getD []).length) % 16) = total
  have ha2l : a2.length = 2 := by
    rw [← ha2]
    exact natToBeBytes_length 2 session_id
  have ht4l : t4.length = 4 := by
    rw [← ht4]
    exact natToBeBytes_length 4 tx_sequence
  have hr4l : r4.length = 4 := by
    rw [← hr4]
    exact natToBeBytes_length 4 rx_sequence
  have h12 : (a2 ++ t4 ++ r4 ++ [pid] ++ [pt]).length = 12 := by
    simp [ha2l, ht4l, hr4l]
  have hencl : enc.length = 4 + (data.getD []).length +
      (16 - (20 + (data.getD []).length) % 16) := by
    rw [← henc, encrypted_length, padded_length, create_payload_length]
    have h14 : ((a2 ++ t4 ++ r4 ++ [pid] ++ [pt]) ++ [0, 0]).length = 14 := by
      simp [ha2l, ht4l, hr4l]
    rw [h14]
    omega
  have htlt : total < 65536 := by omega
  obtain ⟨crcB, hcB⟩ : ∃ l, natToBeBytes 2 (_calculate_crc16
      ((a2 ++ t4 ++ r4 ++ [pid] ++ [pt]) ++
        total / 256 % 256 :: total % 256 :: enc)) = l := ⟨_, rfl⟩
  rw [hcB]
  have hcBl : crcB.length = 2 := by
    rw [← hcB]
    exact natToBeBytes_length _ _
  have houtl : (((a2 ++ t4 ++ r4 ++ [pid] ++ [pt]) ++
      total / 256 % 256 :: total % 256 :: enc) ++ crcB).length = total := by
    simp [List.length_append, ha2l, ht4l, hr4l, hcBl]
    omega
  have hre : ((a2 ++ t4 ++ r4 ++ [pid] ++ [pt]) ++
      total / 256 % 256 :: total % 256 :: enc) ++ crcB =
      (a2 ++ t4 ++ r4 ++ [pid] ++ [pt]) ++
        (total / 256 % 256 :: total % 256 :: (enc ++ crcB)) := by
    simp
  refine ⟨?_, ?_⟩
  · rw [houtl, hre, List.drop_left' h12,
      show (total / 256 % 256 :: total % 256 :: (enc ++ crcB)).take 2 =
        [total / 256 % 256, total % 256] from rfl]
    simp [beBytesToNat]
    omega
  · rw [houtl]
    omega

/-- Witness for C9 at a concrete instance with payload bytes. -/
theorem encoded_length_invariant_witness :
    beBytesToNat (((UNiiRequestMessage.to_bytes 0xFFFF 1 2 REQUEST_ARM_SECTION
        (some [0, 0x12, 0x34, 0x56, 0x78, 0, 0, 0, 0, 5, 1]) none).drop 12).take 2) =
      (UNiiRequestMessage.to_bytes 0xFFFF 1 2 REQUEST_ARM_SECTION
        (some [0, 0x12, 0x34, 0x56, 0x78, 0, 0, 0, 0, 5, 1]) none).length ∧
    (UNiiRequestMessage.to_bytes 0xFFFF 1 2 REQUEST_ARM_SECTION
        (some [0, 0x12, 0x34, 0x56, 0x78, 0, 0, 0, 0, 5, 1]) none).length % 16 = 0 :=
  encoded_length_invariant 0xFFFF 1 2 REQUEST_ARM_SECTION
    (some [0, 0x12, 0x34, 0x56, 0x78, 0, 0, 0, 0, 5, 1]) none
    (by decide) (by decide) (by decide) (by decide) (by decide)

set_option maxRecDepth 16384 in
/-- Claim C7 (against the code as it stands): an input-arrangement response
whose block number field is the 0xFFFF terminator makes the decoder raise an
escaping `AttributeError` — the `except ValueError` handler of
`UNiiResponseMessage.__init__` evaluates the enum member
`UNiiCommand.RESPONSE_REQUEST_OUTPUT_ARRANGEMENT`, which `unii_command.py`
does not define — instead of returning with `data` absent; only the
empty-payload terminator decodes without error (second conjunct). -/
theorem input_arrangement_terminator_crashes
    (other : Nat → List Nat → Except PyExc UNiiData) :
    UNiiResponseMessage.init
        (UNiiRequestMessage.to_bytes 0xFFFF 1 2 RESPONSE_REQUEST_INPUT_ARRANGEMENT
          (some [0x01, 0x02, 0xFF, 0xFF]) none) none other =
      .error (.escaped .attributeError) ∧
    (∀ key : Option KeyStream,
      UNiiResponseMessage.init
          (UNiiRequestMessage.to_bytes 0xFFFF 1 2
            RESPONSE_REQUEST_INPUT_ARRANGEMENT none key) key other =
        .ok ⟨0xFFFF, 1, 2, some RESPONSE_REQUEST_INPUT_ARRANGEMENT, none⟩) := by
  constructor
  · rw [init_to_bytes 0xFFFF 1 2 RESPONSE_REQUEST_INPUT_ARRANGEMENT
      (some [0x01, 0x02, 0xFF, 0xFF]) none other (by decide) (by decide)
      (by decide) (by decide) (by decide)]
    rfl
  · intro key
    exact frame_codec_roundtrip 0xFFFF 1 2 RESPONSE_REQUEST_INPUT_ARRANGEMENT
      key other (by decide) (by decide) (by decide) (by decide)

/-!
## Claim C3: decode failure contract
-/

/-- The total-length field of a wire message: bytes 12-13 of the 14-byte
header slice, big endian (`unii_message.py` 296-300). -/
def lengthField (message : List Nat) : Nat :=
  beBytesToNat (((message.take 14).drop 12).take 2)

/-- The trailing two checksum bytes of a wire message as read by the decoder
(`unii_message.py` 306). -/
def receivedChecksum (message : List Nat) : Nat :=
  beBytesToNat (message.drop (message.length - 2))

/-- The checksum the decoder recomputes over all bytes but the trailing two
(`unii_message.py` 307-308). -/
def expectedChecksum (message : List Nat) : Nat :=
  _calculate_crc16 (message.take (message.length - 2))

/-- Corrupt a byte string by xor-ing its last byte with 0xFF. -/
def flipLastByte (l : List Nat) : List Nat :=
  l.dropLast ++ (match l.getLast? with | none => [] | some b => [b ^^^ 0xFF])

/-- `parseData` only ever fails with `UNiiInvallidMessageError` or an escaping
exception, never with a length or checksum error. -/
theorem parseData_error_shape (other : Nat → List Nat → Except PyExc UNiiData)
    (cmd : Option Nat) (raw : List Nat) (e : UNiiMessageErr)
    (h : parseData other cmd raw = .error e) :
    e = .invalidMessage ∨ e = .escaped .attributeError := by
  rw [parseData.eq_def] at h
  split at h
  · split at h
    · split at h <;> simp at h <;>
        first
          | exact Or.inl h.symm
          | exact Or.inr h.symm
          | exact Or.inl h
          | exact Or.inr h
    · split at h
      · split at h <;> simp at h <;>
          first
            | exact Or.inl h.symm
            | exact Or.inr h.symm
            | exact Or.inl h
            | exact Or.inr h
      · simp at h
        first
          | exact Or.inl h.symm
          | exact Or.inl h
  · simp at h
    first
      | exact Or.inl h.symm
      | exact Or.inl h

/-- The body of `UNiiResponseMessage.__init__` after the length and checksum
checks only ever fails with `UNiiInvallidMessageError` or an escaping
exception. -/
theorem initRest_error_shape (message : List Nat) (key : Option KeyStream)
    (other : Nat → List Nat → Except PyExc UNiiData) (e : UNiiMessageErr)
    (h : UNiiResponseMessage.initRest message key other = .error e) :
    e = .invalidMessage ∨ ∃ p, e = .escaped p := by
  rw [UNiiResponseMessage.initRest.eq_def] at h
  simp only [] at h
  rcases h10 : (message.take 14)[10]? with _ | pb
  · rw [h10] at h
    simp at h
    first
      | exact Or.inr ⟨_, h.symm⟩
      | exact Or.inr ⟨_, h⟩
  · rw [h10] at h
    simp only [] at h
    by_cases hp : pb = 4 ∨ pb = 5
    · rw [if_pos hp] at h
      repeat' split at h
      all_goals
        first
          | (rename_i e1 he1
             simp only [Except.error.injEq] at h
             rcases parseData_error_shape _ _ _ _ he1 with h2 | h2
             · exact Or.inl (h.symm.trans h2)
             · exact Or.inr ⟨.attributeError, h.symm.trans h2⟩)
          | simp at h
    · rw [if_neg hp] at h
      simp only [Except.error.injEq] at h
      exact Or.inr ⟨_, h.symm⟩

/-- Helper for the C3 contract: `UNiiResponseMessage.__init__` raises
`UNiiIncompleteMessageError expected received` exactly when the total-length
field differs from the actual byte count, with the carried values being the
length field and the actual length. -/
theorem init_incomplete_iff (message : List Nat) (key : Option KeyStream)
    (other : Nat → List Nat → Except PyExc UNiiData) (e a : Nat) :
    UNiiResponseMessage.init message key other =
        .error (.incompleteMessage e a) ↔
      lengthField message ≠ message.length ∧ e = lengthField message ∧
        a = message.length := by
  rw [UNiiResponseMessage.init]
  simp only [lengthField]
  by_cases hL : beBytesToNat (((message.take 14).drop 12).take 2) =
      message.length
  · rw [if_neg (fun hcon => hcon hL)]
    constructor
    · intro hcon
      split at hcon
      · simp at hcon
      · rcases initRest_error_shape _ _ _ _ hcon with h2 | ⟨p, h2⟩ <;>
          simp at h2
    · rintro ⟨hne, -, -⟩
      exact absurd hL hne
  · rw [if_pos hL]
    simp only [Except.error.injEq, UNiiMessageErr.incompleteMessage.injEq]
    constructor
    · rintro ⟨h1, h2⟩
      exact ⟨hL, h1.symm, h2.symm⟩
    · rintro ⟨-, h1, h2⟩
      exact ⟨h1.symm, h2.symm⟩

/-- Helper for the C3 contract: when the length field is correct,
`UNiiResponseMessage.__init__` raises `UNiiChecksumError expected received`
exactly when the recomputed CRC-16 differs from the trailing two bytes, with
the carried values being the recomputed and the received checksum. -/
theorem init_checksum_iff (message : List Nat) (key : Option KeyStream)
    (other : Nat → List Nat → Except PyExc UNiiData) (e r : Nat) :
    UNiiResponseMessage.init message key other =
        .error (.checksumError e r) ↔
      lengthField message = message.length ∧
        receivedChecksum message ≠ expectedChecksum message ∧
        e = expectedChecksum message ∧ r = receivedChecksum message := by
  rw [UNiiResponseMessage.init]
  simp only [lengthField, receivedChecksum, expectedChecksum]
  by_cases hL : beBytesToNat (((message.take 14).drop 12).take 2) =
      message.length
  · rw [if_neg (fun hcon => hcon hL)]
    by_cases hC : beBytesToNat (message.drop (message.length - 2)) =
        _calculate_crc16 (message.take (message.length - 2))
    · rw [if_neg (fun hcon => hcon hC)]
      constructor
      · intro hcon
        rcases initRest_error_shape _ _ _ _ hcon with h2 | ⟨p, h2⟩ <;>
          simp at h2
      · rintro ⟨-, hne, -, -⟩
        exact absurd hC hne
    · rw [if_pos hC]
      simp only [Except.error.injEq, UNiiMessageErr.checksumError.injEq]
      constructor
      · rintro ⟨h1, h2⟩
        exact ⟨hL, hC, h1.symm, h2.symm⟩
      · rintro ⟨-, -, h1, h2⟩
        exact ⟨h1.symm, h2.symm⟩
  · rw [if_pos hL]
    constructor
    · intro hcon
      simp at hcon
    · rintro ⟨h1, -, -, -⟩
      exact absurd h1 hL

/-- Xor with 0xFF changes every byte (used for the tampering conjunct). -/
theorem xor255_ne (n : Nat) : n ^^^ 255 ≠ n := by
  intro h
  have h0 := congrArg (fun m => m.testBit 0) h
  simp [Nat.testBit_xor] at h0
  omega

/-- Claim C3: decode failure contract.  For every input byte string, decoding
fails with `UNiiIncompleteMessageError` carrying the expected and actual
lengths exactly when the header's total-length field differs from the actual
byte count; otherwise it fails with `UNiiChecksumError` carrying the expected
(recomputed) and received checksums exactly when the CRC-16 over all bytes but
the trailing two differs from those trailing bytes (no message fields are
produced in either failure case, the error being the only output); and
flipping the last byte of any validly encoded message yields a checksum error
with differing carried values, whatever keys are used on either side. -/
theorem decode_failure_contract (key : Option KeyStream)
    (other : Nat → List Nat → Except PyExc UNiiData) :
    (∀ (message : List Nat) (e a : Nat),
      UNiiResponseMessage.init message key other =
          .error (.incompleteMessage e a) ↔
        lengthField message ≠ message.length ∧ e = lengthField message ∧
          a = message.length) ∧
    (∀ (message : List Nat) (e r : Nat),
      UNiiResponseMessage.init message key other =
          .error (.checksumError e r) ↔
        lengthField message = message.length ∧
          receivedChecksum message ≠ expectedChecksum message ∧
          e = expectedChecksum message ∧ r = receivedChecksum message) ∧
    (∀ (session_id tx_sequence rx_sequence command : Nat)
        (data : Option (List Nat)) (kk : Option KeyStream),
      session_id < 2 ^ 16 → tx_sequence < 2 ^ 32 → rx_sequence < 2 ^ 32 →
      command < 2 ^ 16 → (data.getD []).length ≤ 65000 →
      ∃ e r,
        UNiiResponseMessage.init
            (flipLastByte (UNiiRequestMessage.to_bytes session_id tx_sequence
              rx_sequence command data kk)) key other =
          .error (.checksumError e r) ∧ e ≠ r) := by
  refine ⟨fun message e a => init_incomplete_iff message key other e a,
    fun message e r => init_checksum_iff message key other e r, ?_⟩
  intro session_id tx_sequence rx_sequence command data kk h1 h2 h3 h4 h5
  rw [to_bytes_eq session_id tx_sequence rx_sequence command data kk _ _ _ _
    rfl rfl rfl rfl]
  generalize hpid : (match kk with | none => (4 : Nat) | some _ => 5) = pid
  generalize ha2 : natToBeBytes 2 session_id = a2
  generalize ht4 : natToBeBytes 4 tx_sequence = t4
  generalize hr4 : natToBeBytes 4 rx_sequence = r4
  generalize hpt : (if command < 8 then (1 : Nat) else 2) = pt
  generalize henc : UNiiRequestMessage._encrypted kk
    ((a2 ++ t4 ++ r4 ++ [pid] ++ [pt]) ++ [0, 0])
    (UNiiRequestMessage._padded ((a2 ++ t4 ++ r4 ++ [pid] ++ [pt]) ++ [0, 0])
      (UNiiRequestMessage._create_payload command data)) = enc
  generalize hT : 20 + (data.getD []).length +
    (16 - (20 + (data.getD []).length) % 16) = total
  generalize hcrc : _calculate_crc16 ((a2 ++ t4 ++ r4 ++ [pid] ++ [pt]) ++
    total / 256 % 256 :: total % 256 :: enc) = crc
  have ha2l : a2.length = 2 := by
    rw [← ha2]
    exact natToBeBytes_length 2 session_id
  have ht4l : t4.length = 4 := by
    rw [← ht4]
    exact natToBeBytes_length 4 tx_sequence
  have hr4l : r4.length = 4 := by
    rw [← hr4]
    exact natToBeBytes_length 4 rx_sequence
  have h12 : (a2 ++ t4 ++ r4 ++ [pid] ++ [pt]).length = 12 := by
    simp [ha2l, ht4l, hr4l]
  have hencl : enc.length = 4 + (data.getD []).length +
      (16 - (20 + (data.getD []).length) % 16) := by
    rw [← henc, encrypted_length, padded_length, create_payload_length]
    have h14 : ((a2 ++ t4 ++ r4 ++ [pid] ++ [pt]) ++ [0, 0]).length = 14 := by
      simp [ha2l, ht4l, hr4l]
    rw [h14]
    omega
  have htlt : total < 65536 := by omega
  have hclt : crc < 65536 := by
    rw [← hcrc]
    exact _calculate_crc16_lt _
  rw [natToBeBytes_two]
  have hflip : flipLastByte (((a2 ++ t4 ++ r4 ++ [pid] ++ [pt]) ++
      total / 256 % 256 :: total % 256 :: enc) ++ [crc / 256 % 256, crc % 256]) =
      ((a2 ++ t4 ++ r4 ++ [pid] ++ [pt]) ++
        total / 256 % 256 :: total % 256 :: enc) ++
        [crc / 256 % 256, crc % 256 ^^^ 255] := by
    rw [flipLastByte]
    have hsplit : ((a2 ++ t4 ++ r4 ++ [pid] ++ [pt]) ++
        total / 256 % 256 :: total % 256 :: enc) ++
          [crc / 256 % 256, crc % 256] =
        (((a2 ++ t4 ++ r4 ++ [pid] ++ [pt]) ++
          total / 256 % 256 :: total % 256 :: enc) ++ [crc / 256 % 256]) ++
          [crc % 256] := by
      simp
    rw [hsplit, List.dropLast_concat, List.getLast?_concat]
    simp
  rw [hflip]
  have houtl : (((a2 ++ t4 ++ r4 ++ [pid] ++ [pt]) ++
      total / 256 % 256 :: total % 256 :: enc) ++
      [crc / 256 % 256, crc % 256 ^^^ 255]).length = total := by
    simp [List.length_append, ha2l, ht4l, hr4l]
    omega
  have f1 : (((a2 ++ t4 ++ r4 ++ [pid] ++ [pt]) ++
      total / 256 % 256 :: total % 256 :: enc) ++
      [crc / 256 % 256, crc % 256 ^^^ 255]).take 14 =
      (a2 ++ t4 ++ r4 ++ [pid] ++ [pt]) ++ [total / 256 % 256, total % 256] := by
    have hre : ((a2 ++ t4 ++ r4 ++ [pid] ++ [pt]) ++
        total / 256 % 256 :: total % 256 :: enc) ++
        [crc / 256 % 256, crc % 256 ^^^ 255] =
        ((a2 ++ t4 ++ r4 ++ [pid] ++ [pt]) ++
          [total / 256 % 256, total % 256]) ++
          (enc ++ [crc / 256 % 256, crc % 256 ^^^ 255]) := by
      simp
    rw [hre, List.take_left' (by simp [ha2l, ht4l, hr4l])]
  have hLF : lengthField (((a2 ++ t4 ++ r4 ++ [pid] ++ [pt]) ++
      total / 256 % 256 :: total % 256 :: enc) ++
      [crc / 256 % 256, crc % 256 ^^^ 255]) = total := by
    rw [lengthField, f1, List.drop_left' h12, List.take_of_length_le (by simp)]
    simp [beBytesToNat]
    omega
  have hsubW : total - 2 = ((a2 ++ t4 ++ r4 ++ [pid] ++ [pt]) ++
      total / 256 % 256 :: total % 256 :: enc).length := by
    have h2l : ([crc / 256 % 256, crc % 256 ^^^ 255] : List Nat).length = 2 :=
      rfl
    have := houtl
    rw [List.length_append, h2l] at this
    omega
  have hEXP : expectedChecksum (((a2 ++ t4 ++ r4 ++ [pid] ++ [pt]) ++
      total / 256 % 256 :: total % 256 :: enc) ++
      [crc / 256 % 256, crc % 256 ^^^ 255]) = crc := by
    rw [expectedChecksum, houtl, hsubW, List.take_left, hcrc]
  have hREC : receivedChecksum (((a2 ++ t4 ++ r4 ++ [pid] ++ [pt]) ++
      total / 256 % 256 :: total % 256 :: enc) ++
      [crc / 256 % 256, crc % 256 ^^^ 255]) =
      256 * (crc / 256 % 256) + (crc % 256 ^^^ 255) := by
    rw [receivedChecksum, houtl, hsubW, List.drop_left]
    simp [beBytesToNat]
    ring
  have hne : receivedChecksum (((a2 ++ t4 ++ r4 ++ [pid] ++ [pt]) ++
      total / 256 % 256 :: total % 256 :: enc) ++
      [crc / 256 % 256, crc % 256 ^^^ 255]) ≠
      expectedChecksum (((a2 ++ t4 ++ r4 ++ [pid] ++ [pt]) ++
        total / 256 % 256 :: total % 256 :: enc) ++
        [crc / 256 % 256, crc % 256 ^^^ 255]) := by
    rw [hEXP, hREC]
    have hx := xor255_ne (crc % 256)
    generalize hgx : crc % 256 ^^^ 255 = x at hx ⊢
    omega
  refine ⟨expectedChecksum _, receivedChecksum _,
    (init_checksum_iff _ key other _ _).mpr ⟨?_, hne, rfl, rfl⟩, ?_⟩
  · rw [hLF, houtl]
  · intro hcon
    exact hne hcon.symm

set_option maxRecDepth 16384 in
/-- Witness for C3: a three-byte input fails with the exact incomplete-message
values, and flipping the last byte of a concretely encoded message is caught
by the checksum with differing carried values. -/
theorem decode_failure_contract_witness :
    (UNiiResponseMessage.init [0, 0, 0] none otherFails =
        .error (.incompleteMessage 0 3)) ∧
    (∃ e r, UNiiResponseMessage.init
        (flipLastByte (UNiiRequestMessage.to_bytes 0xFFFF 0x08BE2C53 0
          CONNECTION_REQUEST none none)) none otherFails =
      .error (.checksumError e r) ∧ e ≠ r) := by
  constructor
  · exact ((decode_failure_contract none otherFails).1 [0, 0, 0] 0 3).mpr
      ⟨by decide, by decide, by decide⟩
  · exact (decode_failure_contract none otherFails).2.2 0xFFFF 0x08BE2C53 0
      CONNECTION_REQUEST none none (by decide) (by decide) (by decide)
      (by decide) (by decide)

/-!
## `UNiiLocal` state handling (`src/unii/unii.py`)

`self.sections` and `self.inputs` are Python dicts, modelled as association
lists; a stored input is the dict contents of a `UNiiInput` object after
section expansion.
-/

/-- A section object stored in `self.sections` (only its identity matters to
the claims; `number`/`active` stand for the record contents). -/
structure UNiiSection where
  number : Nat
  active : Bool
deriving DecidableEq, Repr

/-- A `UNiiInput` stored in `self.inputs`: the dict keys of the record, with
`sections` expanded from bit positions to section objects
(`unii.py` 425-426). -/
structure StoredInput where
  number : Nat
  input_type : UNiiInputType
  sensor_type : Nat
  reaction : Nat
  name : Option (List Nat)
  sections : List UNiiSection
  status : UNiiInputState
deriving DecidableEq, Repr

/-- The section-expansion loop of `_handle_input_arrangement` (`unii.py`
425-426): each referenced section number is looked up in `self.sections` with
a bare subscript, so a missing number raises `KeyError` (→ `lookupError`). -/
def expandSections (sections : List (Nat × UNiiSection)) :
    List Nat → Except PyExc (List UNiiSection)
  | [] => .ok []
  | s :: rest =>
    match tblGet sections s with
    | none => .error .lookupError
    | some sec =>
      match expandSections sections rest with
      | .ok l => .ok (sec :: l)
      | .error e => .error e

/-- One iteration of the `_handle_input_arrangement` loop (`unii.py` 423-433).
In the merge branch the source executes `unii_input.status = self.inputs[
unii_input.number].status` followed by `self.inputs[unii_input.number].update(
unii_input)`; the first statement stores an instance *attribute* on the
`UNiiInput` dict subclass (`UNiiInput` aliases only `__getattr__` to
`dict.get`, not `__setattr__`), so the `dict.update` call still copies the
record's decoded `"status"` dict key over the stored one.  Both branches
therefore store exactly the new record's dict fields. -/
def _handle_one_input (sections : List (Nat × UNiiSection))
    (inputs : List (Nat × StoredInput)) (rec : UNiiInputRec) :
    Except PyExc (List (Nat × StoredInput)) :=
  match expandSections sections rec.sections with
  | .error e => .error e
  | .ok exp =>
    let stored : StoredInput := ⟨rec.number, rec.input_type, rec.sensor_type,
      rec.reaction, rec.name, exp, rec.status⟩
    match tblGet inputs rec.number with
    | none => .ok (tblSet inputs rec.number stored)
    | some _ => .ok (tblSet inputs rec.number stored)

/-- The `_handle_input_arrangement` loop over the arrangement's records, in
iteration order of `data.items()`. -/
def handleInputs (sections : List (Nat × UNiiSection)) :
    List (Nat × StoredInput) → List UNiiInputRec →
    Except PyExc (List (Nat × StoredInput))
  | inputs, [] => .ok inputs
  | inputs, r :: rest =>
    match _handle_one_input sections inputs r with
    | .ok inputs2 => handleInputs sections inputs2 rest
    | .error e => .error e

/-- `UNiiLocal._handle_input_arrangement` (`unii.py` 420-433): `None` data
returns immediately, otherwise every record is expanded and inserted or
merged.  An escaping `KeyError` aborts the handler (and is not among the
exception classes caught by `UNiiTCPConnection._receive_coroutine`,
`unii_connection.py` 273-285, which handles only `UNiiMessageError`,
`ConnectionResetError`, `CancelledError`, `TimeoutError` and `IndexError`). -/
def _handle_input_arrangement (sections : List (Nat × UNiiSection))
    (inputs : List (Nat × StoredInput))
    (data : Option (Nat × List UNiiInputRec)) :
    Except PyExc (List (Nat × StoredInput)) :=
  match data with
  | none => .ok inputs
  | some (_, recs) => handleInputs sections inputs recs

/-- The merge step as the specification words it: on a re-merge the previously
observed `status` is carried forward while all other fields are overwritten.
This definition follows the spec, not the source; compare
`_handle_one_input`. -/
def _handle_one_input_specified (sections : List (Nat × UNiiSection))
    (inputs : List (Nat × StoredInput)) (rec : UNiiInputRec) :
    Except PyExc (List (Nat × StoredInput)) :=
  match expandSections sections rec.sections with
  | .error e => .error e
  | .ok exp =>
    match tblGet inputs rec.number with
    | none => .ok (tblSet inputs rec.number ⟨rec.number, rec.input_type,
        rec.sensor_type, rec.reaction, rec.name, exp, rec.status⟩)
    | some old => .ok (tblSet inputs rec.number ⟨rec.number, rec.input_type,
        rec.sensor_type, rec.reaction, rec.name, exp, old.status⟩)

set_option maxRecDepth 16384 in
/-- Claim C4 (refuted — code bug in the merge): re-applying an arrangement
update to an existing input does NOT leave its `status` field unchanged.
`unii_input.status = self.inputs[...].status` (`unii.py` 432) sets an instance
attribute on the `UNiiInput` dict subclass — `UNiiInput` aliases only
`__getattr__` to `dict.get` — so the following `dict.update` copies the
record's decoded `"status"` dict key, which `UNiiInput.__init__` always sets
to `DISABLED`.  First conjunct: after any merge the stored status equals the
incoming record's decoded status.  Second conjunct: concretely, an input
stored with status `ALARM` ends up `DISABLED` after a re-merge of its own
arrangement record, whereas the merge described by the specification
(`_handle_one_input_specified`) would keep `ALARM`. -/
theorem input_status_reset_on_merge :
    (∀ (sections : List (Nat × UNiiSection)) (inputs : List (Nat × StoredInput))
        (rec : UNiiInputRec),
      match _handle_one_input sections inputs rec with
      | .ok st => (tblGet st rec.number).map StoredInput.status = some rec.status
      | .error _ => True) ∧
    (∃ rec, UNiiInput.init [0, 1, 1, 0, 0, 0, 0, 0, 1] = .ok rec ∧
      _handle_input_arrangement [(1, ⟨1, true⟩)]
          [(1, ⟨1, .wired, 1, 0, none, [⟨1, true⟩], .alarm⟩)]
          (some (1, [rec])) =
        .ok [(1, ⟨1, .wired, 1, 0, none, [⟨1, true⟩], .disabled⟩)] ∧
      _handle_one_input_specified [(1, ⟨1, true⟩)]
          [(1, ⟨1, .wired, 1, 0, none, [⟨1, true⟩], .alarm⟩)] rec =
        .ok [(1, ⟨1, .wired, 1, 0, none, [⟨1, true⟩], .alarm⟩)]) := by
  constructor
  · intro sections inputs rec
    cases hexp : expandSections sections rec.sections with
    | error e => simp [_handle_one_input, hexp]
    | ok exp =>
      cases hg : tblGet inputs rec.number <;>
        simp [_handle_one_input, hexp, hg, tblGet_set_self]
  · exact ⟨⟨1, .wired, 1, 0, none, [1], .disabled⟩, by decide, by decide,
      by decide⟩

/-- A section-expansion pass succeeds when every referenced section number is
present in the sections table. -/
theorem expandSections_ok (sections : List (Nat × UNiiSection)) (l : List Nat)
    (h : ∀ s ∈ l, (tblGet sections s).isSome) :
    ∃ v, expandSections sections l = .ok v := by
  induction l with
  | nil => exact ⟨[], rfl⟩
  | cons s rest ih =>
    have hs := h s (List.mem_cons_self s rest)
    cases hg : tblGet sections s with
    | none => rw [hg] at hs; simp at hs
    | some sec =>
      obtain ⟨v, hv⟩ := ih (fun x hx => h x (List.mem_cons_of_mem _ hx))
      exact ⟨sec :: v, by simp [expandSections, hg, hv]⟩

/-- The arrangement loop succeeds when every record's referenced sections are
present. -/
theorem handleInputs_ok (sections : List (Nat × UNiiSection))
    (recs : List UNiiInputRec) (inputs : List (Nat × StoredInput))
    (h : ∀ r ∈ recs, ∀ s ∈ r.sections, (tblGet sections s).isSome) :
    ∃ st, handleInputs sections inputs recs = .ok st := by
  induction recs generalizing inputs with
  | nil => exact ⟨inputs, rfl⟩
  | cons r rest ih =>
    obtain ⟨v, hv⟩ := expandSections_ok sections r.sections
      (h r (List.mem_cons_self r rest))
    obtain ⟨st, hst⟩ := ih (tblSet inputs r.number ⟨r.number, r.input_type,
      r.sensor_type, r.reaction, r.name, v, r.status⟩)
      (fun x hx => h x (List.mem_cons_of_mem _ hx))
    refine ⟨st, ?_⟩
    cases hg : tblGet inputs r.number <;>
      simp [handleInputs, _handle_one_input, hv, hg, hst]

/-- Claim C10: the input-arrangement handler looks each referenced section
number up with a bare subscript (`self.sections[section]`, `unii.py` 426), so
a record referencing a section number absent from the sections table makes the
handler raise `KeyError` (a `LookupError`, which
`UNiiTCPConnection._receive_coroutine` does not catch: its handlers cover only
`UNiiMessageError`, `ConnectionResetError`, `CancelledError`, `TimeoutError`
and `IndexError`), instead of logging and continuing; and under the
precondition that every referenced section number is present, the error branch
is unreachable. -/
theorem section_lookup_unguarded :
    (_handle_input_arrangement []
        [] (some (1, [⟨1, .wired, 1, 0, none, [2], .disabled⟩])) =
      .error .lookupError) ∧
    (∀ (sections : List (Nat × UNiiSection)) (inputs : List (Nat × StoredInput))
        (block : Nat) (recs : List UNiiInputRec),
      (∀ r ∈ recs, ∀ s ∈ r.sections, (tblGet sections s).isSome) →
      ∃ st, _handle_input_arrangement sections inputs (some (block, recs)) =
        .ok st) := by
  constructor
  · decide
  · intro sections inputs block recs h
    exact handleInputs_ok sections recs inputs h

/-- Witness for C10 at a concrete satisfied precondition. -/
theorem section_lookup_unguarded_witness :
    (∀ r ∈ ([⟨1, .wired, 1, 0, none, [1], .disabled⟩] : List UNiiInputRec),
      ∀ s ∈ r.sections, (tblGet [(1, (⟨1, true⟩ : UNiiSection))] s).isSome) ∧
    ∃ st, _handle_input_arrangement [(1, ⟨1, true⟩)] []
        (some (1, [⟨1, .wired, 1, 0, none, [1], .disabled⟩])) = .ok st :=
  ⟨by decide, section_lookup_unguarded.2 [(1, ⟨1, true⟩)] [] 1
    [⟨1, .wired, 1, 0, none, [1], .disabled⟩] (by decide)⟩

/-!
## Arm/disarm (`unii_command_data.py` 387-448, `unii.py` 548-581)
-/

inductive UNiiArmState where
  | no_change
  | section_armed
  | arming_failed_section_not_ready
  | arming_failed_not_authorized
deriving DecidableEq, Repr

inductive UNiiDisarmState where
  | no_change
  | section_disarmed
  | disarming_failed
  | disarming_failed_not_authorized
deriving DecidableEq, Repr

/-- `UNiiArmSectionStatus` (`unii_command_data.py` 405-416). -/
structure UNiiArmSectionStatus where
  number : Nat
  arm_state : UNiiArmState
deriving DecidableEq, Repr

/-- `UNiiDisarmSectionStatus` (`unii_command_data.py` 437-448). -/
structure UNiiDisarmSectionStatus where
  number : Nat
  disarm_state : UNiiDisarmState
deriving DecidableEq, Repr

/-- `UNiiLocal.arm_section` (`unii.py` 548-562) from the point where
`_send_receive` has produced `(response, data)`; on a 5-second timeout that
pair is `(None, None)`.  The condition on line 555 short-circuits, but the
failure path logs `data.arm_state` (line 561) unconditionally, and attribute
access on `None` raises `AttributeError`. -/
def arm_section (response : Option Nat) (data : Option UNiiArmSectionStatus) :
    Except PyExc Bool :=
  if response = some RESPONSE_ARM_SECTION then
    match data with
    | none => .error .attributeError
    | some d =>
      if d.arm_state = .section_armed ∨ d.arm_state = .no_change then .ok true
      else .ok false
  else
    match data with
    | none => .error .attributeError
    | some _ => .ok false

/-- `UNiiLocal.disarm_section` (`unii.py` 564-581): same shape, but the
failure path guards the logging with `if data is not None` (line 577), so only
a matching response with absent data can reach `data.disarm_state` on
`None`. -/
def disarm_section (response : Option Nat)
    (data : Option UNiiDisarmSectionStatus) : Except PyExc Bool :=
  if response = some RESPONSE_DISARM_SECTION then
    match data with
    | none => .error .attributeError
    | some d =>
      if d.disarm_state = .section_disarmed ∨ d.disarm_state = .no_change then
        .ok true
      else .ok false
  else .ok false

/-- Claim C5 (refuted in part — code bug): with a matching response present,
`arm_section`/`disarm_section` return `True` exactly for the armed/disarmed or
no-change states and `False` otherwise without raising (conjuncts 1-2); but on
the timeout outcome `(None, None)` `arm_section` does not return `False`: its
failure-path logging dereferences `data.arm_state` on `None` and raises
`AttributeError` (conjunct 3), while `disarm_section`, whose logging is
guarded, returns `False` as specified (conjunct 4). -/
theorem arm_disarm_result_contract :
    (∀ d : UNiiArmSectionStatus,
      arm_section (some RESPONSE_ARM_SECTION) (some d) =
        .ok (decide (d.arm_state = .section_armed ∨
          d.arm_state = .no_change))) ∧
    (∀ d : UNiiDisarmSectionStatus,
      disarm_section (some RESPONSE_DISARM_SECTION) (some d) =
        .ok (decide (d.disarm_state = .section_disarmed ∨
          d.disarm_state = .no_change))) ∧
    (arm_section none none = .error .attributeError) ∧
    (disarm_section none none = .ok false) := by
  refine ⟨?_, ?_, rfl, rfl⟩
  · intro d
    obtain ⟨n, s⟩ := d
    cases s <;> rfl
  · intro d
    obtain ⟨n, s⟩ := d
    cases s <;> rfl

/-!
## Pending-correlation state (`unii.py` 463-485)

`self._waiting_for_message` maps a tx sequence number to the expected response
command (`None` meaning any); `self._received_message_queue` maps a tx
sequence number to the received `[command, data]` pair.
-/

structure CorrelationState where
  waiting : List (Nat × Option Nat)
  queue : List (Nat × (Option Nat × Option UNiiData))
deriving DecidableEq, Repr

/-- `self._waiting_for_message[tx_sequence] = expected_response`
(`unii.py` 475). -/
def registerWaiting (s : CorrelationState) (tx : Nat) (expected : Option Nat) :
    CorrelationState :=
  { s with waiting := tblSet s.waiting tx expected }

/-- The correlation step of `UNiiLocal._message_received_callback`
(`unii.py` 463-467): if the sender is waiting on this tx sequence and the
expected command is `None` or matches, the `[command, data]` pair is queued. -/
def messageReceivedCorrelation (s : CorrelationState) (tx : Nat)
    (command : Option Nat) (data : Option UNiiData) : CorrelationState :=
  match tblGet s.waiting tx with
  | none => s
  | some expected =>
    if expected = none ∨ expected = command then
      { s with queue := tblSet s.queue tx (command, data) }
    else s

/-- The match exit of `UNiiLocal._get_received_message` (`unii.py` 478-479):
when the queue holds an entry for the tx sequence it is popped and returned.
The source returns directly, leaving `self._waiting_for_message` untouched on
this path. -/
def getReceivedMessageMatch (s : CorrelationState) (tx : Nat) :
    Option ((Option Nat × Option UNiiData) × CorrelationState) :=
  match tblGet s.queue tx with
  | none => none
  | some v => some (v, { s with queue := tblDel s.queue tx })

/-- The timeout exit of `UNiiLocal._get_received_message` (`unii.py` 483-485):
the waiting entry is deleted and `[None, None]` is returned. -/
def getReceivedMessageTimeout (s : CorrelationState) (tx : Nat) :
    (Option Nat × Option UNiiData) × CorrelationState :=
  ((none, none), { s with waiting := tblDel s.waiting tx })

set_option maxRecDepth 8192 in
/-- Counterexample to claim C8 as stated: register tx sequence 7, receive the
matching response (which queues it), pop it via the match exit — the returned
state still holds the waiting entry for 7, so the pending-correlation entry is
NOT removed on match and outlives both events (the timeout branch never runs
on this path). -/
theorem waiting_entry_leaks_on_match :
    ∃ v s2,
      getReceivedMessageMatch
          (messageReceivedCorrelation
            (registerWaiting ⟨[], []⟩ 7 (some RESPONSE_ARM_SECTION))
            7 (some RESPONSE_ARM_SECTION) none) 7 = some (v, s2) ∧
      v = (some RESPONSE_ARM_SECTION, none) ∧
      tblGet s2.waiting 7 = some (some RESPONSE_ARM_SECTION) := by
  refine ⟨(some RESPONSE_ARM_SECTION, none),
    ⟨[(7, some RESPONSE_ARM_SECTION)], []⟩, ?_, rfl, rfl⟩
  decide

/-- Claim C8, amended to the behavior of the source: a pending-correlation
entry is created on send and removed on timeout, but the match exit of
`_get_received_message` removes only the queue entry and leaves the waiting
entry in place (`unii.py` 478-479 return without deleting). -/
theorem correlation_lifecycle_amended :
    (∀ (s : CorrelationState) (tx : Nat) (expected : Option Nat),
      tblGet (registerWaiting s tx expected).waiting tx = some expected) ∧
    (∀ (s : CorrelationState) (tx : Nat),
      tblGet (getReceivedMessageTimeout s tx).2.waiting tx = none) ∧
    (∀ (s : CorrelationState) (tx : Nat) (v : Option Nat × Option UNiiData)
        (s2 : CorrelationState),
      getReceivedMessageMatch s tx = some (v, s2) →
      s2.waiting = s.waiting ∧ tblGet s2.queue tx = none) := by
  refine ⟨fun s tx expected => tblGet_set_self _ _ _,
    fun s tx => tblGet_del_self _ _, ?_⟩
  intro s tx v s2 h
  rw [getReceivedMessageMatch] at h
  cases hq : tblGet s.queue tx with
  | none => rw [hq] at h; simp at h
  | some v0 =>
    rw [hq] at h
    simp only [Option.some.injEq, Prod.mk.injEq] at h
    obtain ⟨-, h2⟩ := h
    rw [← h2]
    exact ⟨rfl, tblGet_del_self _ _⟩

/-- Witness for the amended C8 lifecycle at concrete states. -/
theorem correlation_lifecycle_amended_witness :
    tblGet (registerWaiting ⟨[], []⟩ 7 (some 2)).waiting 7 = some (some 2) ∧
    tblGet (getReceivedMessageTimeout ⟨[(7, some 2)], []⟩ 7).2.waiting 7 =
      none ∧
    ((⟨[(7, some 2)], []⟩ : CorrelationState).waiting =
        (⟨[(7, some 2)], [(7, (some 2, none))]⟩ : CorrelationState).waiting ∧
      tblGet (⟨[(7, some 2)], []⟩ : CorrelationState).queue 7 = none) :=
  ⟨correlation_lifecycle_amended.1 ⟨[], []⟩ 7 (some 2),
    correlation_lifecycle_amended.2.1 ⟨[(7, some 2)], []⟩ 7,
    correlation_lifecycle_amended.2.2 ⟨[(7, some 2)], [(7, (some 2, none))]⟩ 7
      (some 2, none) ⟨[(7, some 2)], []⟩ (by decide)⟩
